import Mathlib

/-!
Verification development for the wechat-customer-service Cloudflare worker.

The message-processing core of the repository is shallowly embedded here:
* `KVStore` models a Cloudflare KV namespace (get/put with explicit,
  per-key failure behaviour; TTL expiry is modelled as "not yet expired",
  i.e. a stored record is visible until it would be deleted by the store).
* `MessageTracker.*` embeds message-tracker.js (the deduplication ledger).
* `ConversationManager.*` embeds conversation.js (the context store).
* `getLatestTextMessagesFrom` / `syncAllMessagesFuel` embed the
  synchronizer of clients.js (`WeChatClient.getLatestTextMessages` /
  `WeChatClient.syncAllMessages`).
* `splitStringByLength`, `dispatchReply`, `processUserMessage` and
  `handleCallbackAsync` embed index.js.

External collaborators (crypto microservice, OpenAI chat completion, the
WeChat messaging gateway) are abstracted exactly as the repository uses
them: the crypto boundary by its returned `ret` code (crypto.js catches all
of its own errors and returns codes, it never throws), the AI by an oracle
function, and outbound gateway calls by an emitted `SendEvent` trace
(gateway sends are modelled as succeeding; the claims under study do not
concern gateway failures).  JavaScript strings are modelled as `List Char`
so that `length`, `slice`, and `trim` have direct counterparts.
-/

namespace WxKf

/-! ## §1 Key-value store model (Cloudflare KV namespace)

A KV namespace holds JSON records keyed by strings.  `getFails k` /
`putFails k` say whether the underlying storage operation on key `k`
fails (throws) — this makes the try/catch behaviour of the repository around
storage explicit.  A put that succeeds prepends the binding; `List.lookup`
takes the first binding, so prepending is overwrite semantics. -/

structure KVStore (α : Type) where
  entries : List (String × α)
  getFails : String → Bool
  putFails : String → Bool

def kvGet {α : Type} (kv : KVStore α) (key : String) : Except Unit (Option α) :=
  if kv.getFails key then .error () else .ok (kv.entries.lookup key)

def kvPut {α : Type} (kv : KVStore α) (key : String) (v : α) :
    Except Unit (KVStore α) :=
  if kv.putFails key then .error ()
  else .ok { kv with entries := (key, v) :: kv.entries }

/-! ## §2 Deduplication ledger (message-tracker.js, `MessageTracker`)

A `ProcessingRecord` models the JSON blob written by
`markMessageAsProcessed` (`msgId`, timestamps, a `success` flag and
call-specific metadata; only the fields the claims mention are kept). -/

structure ProcessingRecord where
  msgId : String
  timestamp : Nat
  success : Bool
deriving DecidableEq

/-- Embeds `MessageTracker.getMessageKey`: keys are namespaced `processed_msg:`. -/
def messageKey (msgId : String) : String := "processed_msg:" ++ msgId

/-- Embeds `MessageTracker.isMessageProcessed`: `kv.get` inside try/catch; any
storage error is caught and the method returns `false` (fail-open). -/
def isMessageProcessed (kv : KVStore ProcessingRecord) (msgId : String) : Bool :=
  match kvGet kv (messageKey msgId) with
  | .error _ => false
  | .ok r => r.isSome

/-- Embeds `MessageTracker.markMessageAsProcessed`: `kv.put` inside try/catch,
but the catch rethrows — a storage failure propagates to the caller. -/
def markMessageAsProcessed (kv : KVStore ProcessingRecord) (msgId : String)
    (now : Nat) (success : Bool) : Except Unit (KVStore ProcessingRecord) :=
  kvPut kv (messageKey msgId) ⟨msgId, now, success⟩

/-- Embeds `MessageTracker.checkMultipleMessages`: checks every id via
`isMessageProcessed` (which already swallows per-id storage failures). -/
def checkMultipleMessages (kv : KVStore ProcessingRecord) (msgIds : List String) :
    List (String × Bool) :=
  msgIds.map (fun msgId => (msgId, isMessageProcessed kv msgId))

/-! ## §3 Conversation context store (conversation.js, `ConversationManager`) -/

inductive ChatRole
  | system
  | user
  | assistant
deriving DecidableEq

/-- One element of the stored conversation history.  The system entry
created by `getConversationHistory` carries no timestamp; entries added by
the append operations are stamped with `Date.now()`. -/
structure ChatEntry where
  role : ChatRole
  content : List Char
  timestamp : Option Nat
deriving DecidableEq

/-- Options of `ConversationManager`: `maxHistoryLength` and `systemPrompt`
(the `expirationTtl` option only feeds the TTL of the store and is absorbed
into the KV model). -/
structure ConvConfig where
  maxHistoryLength : Nat
  systemPrompt : List Char

def conversationKey (userId : String) : String := "conversation:" ++ userId

def systemEntry (cfg : ConvConfig) : ChatEntry :=
  ⟨.system, cfg.systemPrompt, none⟩

/-- Embeds `ConversationManager.getConversationHistory`: read the stored history
(a caught storage failure, like an absent key, yields the empty history),
strip a stored leading system entry, and prepend the current prompt. -/
def getConversationHistory (cfg : ConvConfig) (kv : KVStore (List ChatEntry))
    (userId : String) : List ChatEntry :=
  match kvGet kv (conversationKey userId) with
  | .error _ => [systemEntry cfg]
  | .ok none => [systemEntry cfg]
  | .ok (some stored) =>
    let history :=
      match stored with
      | [] => []
      | e :: rest => if e.role = ChatRole.system then rest else stored
    systemEntry cfg :: history

/-- Embeds `ConversationManager.saveConversationHistory`: trim to the system
entry plus the last `maxHistoryLength` entries, then persist; a put
failure is rethrown. -/
def saveConversationHistory (cfg : ConvConfig) (kv : KVStore (List ChatEntry))
    (userId : String) (history : List ChatEntry) :
    Except Unit (KVStore (List ChatEntry) × List ChatEntry) :=
  let trimmed :=
    if cfg.maxHistoryLength + 1 < history.length then
      history.take 1 ++ history.drop (history.length - cfg.maxHistoryLength)
    else history
  match kvPut kv (conversationKey userId) trimmed with
  | .error e => .error e
  | .ok kv2 => .ok (kv2, trimmed)

/-- Embeds `ConversationManager.addUserMessage`. -/
def addUserMessage (cfg : ConvConfig) (kv : KVStore (List ChatEntry))
    (userId : String) (content : List Char) (now : Nat) :
    Except Unit (KVStore (List ChatEntry) × List ChatEntry) :=
  saveConversationHistory cfg kv userId
    (getConversationHistory cfg kv userId ++ [⟨.user, content, some now⟩])

/-- Embeds `ConversationManager.addAssistantMessage`. -/
def addAssistantMessage (cfg : ConvConfig) (kv : KVStore (List ChatEntry))
    (userId : String) (content : List Char) (now : Nat) :
    Except Unit (KVStore (List ChatEntry) × List ChatEntry) :=
  saveConversationHistory cfg kv userId
    (getConversationHistory cfg kv userId ++ [⟨.assistant, content, some now⟩])

/-- The role/content pair passed to the chat-completion API. -/
structure AiMessage where
  role : ChatRole
  content : List Char
deriving DecidableEq

/-- Embeds `ConversationManager.processUserMessage`: append the user message and
return the updated history plus the AI-facing projection. -/
def ConversationManager.processUserMessage (cfg : ConvConfig)
    (kv : KVStore (List ChatEntry)) (userId : String) (content : List Char)
    (now : Nat) :
    Except Unit (KVStore (List ChatEntry) × List ChatEntry × List AiMessage) :=
  match addUserMessage cfg kv userId content now with
  | .error e => .error e
  | .ok (kv2, updated) => .ok (kv2, updated, updated.map (fun e => ⟨e.role, e.content⟩))

/-! ## §4 Inbox synchronizer (clients.js, `WeChatClient`) -/

/-- One element of the remote `sync_msg` response (`msg_list`).  Fields
kept as the code reads them: `message.msgtype`, `message.send_time`
(possibly absent, read as `send_time || 0`), `message.text?.content`
(absent for non-text messages, read as `... || ''`), `message.msgid || ''`
and `message.external_userid || ''`. -/
structure RawMessage where
  msgtype : String
  send_time : Option Nat
  text : Option (List Char)
  msgid : String
  external_userid : String
deriving DecidableEq

/-- The sort key of `(a, b) => (b.send_time || 0) - (a.send_time || 0)`. -/
def sendKey (m : RawMessage) : Nat := m.send_time.getD 0

/-- The descending-by-send-time order used by `allMessages.sort(...)`.
JavaScript `Array.prototype.sort` is stable and this comparator is a total
preorder, so the result is the unique stable descending sort; the Mathlib
stable `insertionSort` computes it. -/
def byTimeDesc (a b : RawMessage) : Prop := sendKey b ≤ sendKey a

instance : DecidableRel byTimeDesc := fun a b => Nat.decLe (sendKey b) (sendKey a)

instance : IsTotal RawMessage byTimeDesc :=
  ⟨fun a b => Nat.le_total (sendKey b) (sendKey a)⟩

instance : IsTrans RawMessage byTimeDesc :=
  ⟨fun _ _ _ h1 h2 => Nat.le_trans h2 h1⟩

/-- The record pushed onto `unprocessedTextMessages` (the locale-formatted
`sendTime` display string is not modelled; the orchestrator only reads
`content`, `msgid` and `externalUserid`). -/
structure EmittedMessage where
  content : List Char
  msgid : String
  externalUserid : String
  originalMessage : RawMessage
deriving DecidableEq

/-- Embeds `WeChatClient.getLatestTextMessages`, given the accumulated
`syncAllMessages` result: sort descending by send time, then run the scan
loop — which `break`s unconditionally at the end of its first iteration,
so only the single newest message is ever examined.  That message is
emitted iff it is a text message with non-empty content and id that the
ledger reports unprocessed. -/
def getLatestTextMessagesFrom (allMessages : List RawMessage)
    (tracker : KVStore ProcessingRecord) : List EmittedMessage :=
  match allMessages.insertionSort byTimeDesc with
  | [] => []
  | m :: _ =>
    if m.msgtype = "text" then
      let content := m.text.getD []
      let msgid := m.msgid
      let externalUserid := m.external_userid
      if content ≠ [] ∧ msgid ≠ "" then
        if isMessageProcessed tracker msgid then []
        else [⟨content, msgid, externalUserid, m⟩]
      else []
    else []

/-- One page returned by the remote `sync_msg` primitive. -/
structure SyncPage where
  msg_list : List RawMessage
  next_cursor : Option String

/-- JavaScript truthiness of the cursor: `!cursor` holds for a missing
cursor and for the empty string. -/
def cursorFalsy : Option String → Bool
  | none => true
  | some s => s.isEmpty

/-- Embeds `WeChatClient.syncAllMessages`: the cursor-pagination accumulation
loop, instrumented with fuel.  The remote is a function from the current
cursor to the returned page.  One unit of fuel is one page fetch;
`none` means the `while (true)` loop was still running after `fuel`
fetches (the source has no iteration cap of its own). -/
def syncAllMessagesFuel (remote : Option String → SyncPage) :
    Nat → Option String → List RawMessage → Option (List RawMessage)
  | 0, _, _ => none
  | fuel + 1, cursor, acc =>
    let page := remote cursor
    let acc2 := acc ++ page.msg_list
    if cursorFalsy page.next_cursor || page.msg_list.isEmpty then some acc2
    else syncAllMessagesFuel remote fuel page.next_cursor acc2

/-! ## §5 Reply dispatcher and callback orchestrator (index.js) -/

/-- Embeds `splitStringByLength` (index.js): repeatedly slice off `len`-length
prefixes.  Embedded with structural fuel (`s.length` suffices for any
`len ≥ 1`, the only way the source calls it). -/
def splitStringByLengthAux (len : Nat) : Nat → List Char → List (List Char)
  | _, [] => []
  | 0, _ :: _ => []
  | fuel + 1, c :: rest =>
    (c :: rest).take len :: splitStringByLengthAux len fuel ((c :: rest).drop len)

def splitStringByLength (s : List Char) (len : Nat) : List (List Char) :=
  splitStringByLengthAux len s.length s

/-- JavaScript `String.prototype.trim`: strip whitespace at both ends. -/
def jsTrim (s : List Char) : List Char :=
  ((s.dropWhile Char.isWhitespace).reverse.dropWhile Char.isWhitespace).reverse

/-- Observable effects of one callback run: outbound gateway calls plus a
marker recording that the per-message processing body (past the ledger
dedup gate) started for a message id. -/
inductive SendEvent
  | textSent (touser openKfid : String) (content : List Char)
  | fileUploaded (filename : List Char) (content : List Char)
  | fileSent (touser openKfid : String)
  | procStart (msgid : String)
deriving DecidableEq

def messageChunkSize : Nat := 1024
def messageChunkCount : Nat := 5

/-- Embeds `wireNote`: upload the entire reply `value` as a text file, then send
the file message.  Note the uploaded content is the reply as passed in
(`assistantMessage`, untrimmed). -/
def wireNoteEvents (touser openKfid msgid : String) (question value : List Char) :
    List SendEvent :=
  [.fileUploaded (question ++ "-完整回答-".data ++ msgid.data ++ ".txt".data) value,
   .fileSent touser openKfid]

/-- The chunk-dispatch `for` loop of `processUserMessage`: `i` is the
current index, `total` the chunk count.  When `i + 1` equals the
configured chunk count or `i` is the final index, `wireNote` runs instead
of a text send; there is no `break`, so iteration continues afterwards. -/
def dispatchLoop (touser openKfid msgid : String) (question value : List Char)
    (total : Nat) : Nat → List (List Char) → List SendEvent
  | _, [] => []
  | i, c :: rest =>
    (if i + 1 = messageChunkCount ∨ i = total - 1 then
      wireNoteEvents touser openKfid msgid question value
     else [.textSent touser openKfid c]) ++
    dispatchLoop touser openKfid msgid question value total (i + 1) rest

/-- The reply-dispatch portion of `processUserMessage` (index.js lines
562–576): a reply longer than `messageChunkSize` is trimmed and split into
chunks driven through `dispatchLoop`; otherwise the reply is sent as a
single text message, untrimmed. -/
def dispatchReply (touser openKfid msgid : String) (question : List Char)
    (assistantMessage : List Char) : List SendEvent :=
  if messageChunkSize < assistantMessage.length then
    let chunks := splitStringByLength (jsTrim assistantMessage) messageChunkSize
    dispatchLoop touser openKfid msgid question assistantMessage chunks.length 0 chunks
  else
    [.textSent touser openKfid assistantMessage]

/-- Mutable state shared across callback runs: the two KV namespaces. -/
structure SysState where
  tracker : KVStore ProcessingRecord
  convs : KVStore (List ChatEntry)

/-- The fixed apology sent when AI processing fails. -/
def errorMessageText : List Char := "抱歉，AI服务暂时不可用，请稍后再试。".data

/-- The `catch` block of `processUserMessage`: send the apology (its own
send failure is swallowed), then mark the message processed-with-failure —
a failure of that write is rethrown (the returned `Bool` is `true` iff the
whole function throws). -/
def processUserMessageCatch (touser openKfid msgid : String) (now : Nat)
    (s : SysState) (evs : List SendEvent) : SysState × List SendEvent × Bool :=
  let evs2 := evs ++ [.textSent touser openKfid errorMessageText]
  match markMessageAsProcessed s.tracker msgid now false with
  | .ok tr => ({ s with tracker := tr }, evs2, false)
  | .error _ => (s, evs2, true)

/-- Embeds `processUserMessage` (index.js): the per-message pipeline.  `ai` is
the chat-completion collaborator (`none` models a thrown request failure
or a response with no message content).  Returns the updated state, the
emitted events, and whether the function threw. -/
def processUserMessage (ai : List AiMessage → Option (List Char))
    (cfg : ConvConfig) (externalUserid : String) (content : List Char)
    (msgid : String) (msgKfId : String) (s : SysState) (now : Nat) :
    SysState × List SendEvent × Bool :=
  if isMessageProcessed s.tracker msgid then (s, [], false)
  else
    match ConversationManager.processUserMessage cfg s.convs externalUserid content now with
    | .error _ => processUserMessageCatch externalUserid msgKfId msgid now s [.procStart msgid]
    | .ok (convs2, _, aiMessages) =>
      let s2 : SysState := { s with convs := convs2 }
      match ai aiMessages with
      | none => processUserMessageCatch externalUserid msgKfId msgid now s2 [.procStart msgid]
      | some assistantMessage =>
        if assistantMessage = [] then
          processUserMessageCatch externalUserid msgKfId msgid now s2 [.procStart msgid]
        else
          match addAssistantMessage cfg s2.convs externalUserid assistantMessage now with
          | .error _ => processUserMessageCatch externalUserid msgKfId msgid now s2 [.procStart msgid]
          | .ok (convs3, _) =>
            let s3 : SysState := { s2 with convs := convs3 }
            let evs := SendEvent.procStart msgid ::
              dispatchReply externalUserid msgKfId msgid content assistantMessage
            match markMessageAsProcessed s3.tracker msgid now true with
            | .ok tr => ({ s3 with tracker := tr }, evs, false)
            | .error _ => processUserMessageCatch externalUserid msgKfId msgid now s3 evs

/-- The per-callback environment: decrypt outcome and parsed fields
(the crypto.js `decryptMsg` catches all of its own errors and returns a
`ret` code, it never throws), the synced mailbox content, and the AI
collaborator. -/
structure CallbackWorld where
  decryptRet : Int
  kfId : String
  mailbox : List RawMessage
  ai : List AiMessage → Option (List Char)

/-- Embeds `handleCallbackAsync` (index.js): verify/decrypt, sync, process the
newest unprocessed text message, then mark the call-level id (the webhook
`msg_signature`).  On `ret ≠ 0` the function just logs and returns —
nothing is written to the ledger.  A throw from the inner processing is
caught and the call-level id is marked failed; write failures of that
last-resort marking escape to `ctx.waitUntil` unobserved. -/
def handleCallbackAsync (w : CallbackWorld) (cfg : ConvConfig)
    (msgSignature : String) (s : SysState) (now : Nat) :
    SysState × List SendEvent :=
  if w.decryptRet ≠ 0 then (s, [])
  else
    let (s1, ev1, threw) :=
      match getLatestTextMessagesFrom w.mailbox s.tracker with
      | [] => (s, [], false)
      | m :: _ =>
        processUserMessage w.ai cfg m.externalUserid m.content m.msgid w.kfId s now
    if threw then
      match markMessageAsProcessed s1.tracker msgSignature now false with
      | .ok tr => ({ s1 with tracker := tr }, ev1)
      | .error _ => (s1, ev1)
    else
      match markMessageAsProcessed s1.tracker msgSignature now true with
      | .ok tr => ({ s1 with tracker := tr }, ev1)
      | .error _ =>
        match markMessageAsProcessed s1.tracker msgSignature now false with
        | .ok tr => ({ s1 with tracker := tr }, ev1)
        | .error _ => (s1, ev1)

/-! ## Derived observation helpers -/

/-- Is an event an outbound text send (`sendTextMessage`)? -/
def isTextSend : SendEvent → Bool
  | .textSent .. => true
  | _ => false

/-- Is an event a media upload (`uploadMedia`)? -/
def isFileUpload : SendEvent → Bool
  | .fileUploaded .. => true
  | _ => false

/-- The contents of the dispatched text sends, in dispatch order. -/
def textContents (evs : List SendEvent) : List (List Char) :=
  evs.filterMap fun e =>
    match e with
    | .textSent _ _ c => some c
    | _ => none

/-- The contents of the uploaded files, in dispatch order. -/
def fileContents (evs : List SendEvent) : List (List Char) :=
  evs.filterMap fun e =>
    match e with
    | .fileUploaded _ c => some c
    | _ => none

/-- One call of `addUserMessage` or `addAssistantMessage` as performed by
the worker during normal operation. -/
inductive AppendOp
  | userMsg (content : List Char) (now : Nat)
  | assistantMsg (content : List Char) (now : Nat)

/-- The conversation entry an append operation creates. -/
def opEntry : AppendOp → ChatEntry
  | .userMsg c n => ⟨.user, c, some n⟩
  | .assistantMsg c n => ⟨.assistant, c, some n⟩

/-- Run a sequence of append operations against the conversation store,
threading the store state (stopping at the first storage write failure,
which the source rethrows). -/
def applyAppends (cfg : ConvConfig) (kv : KVStore (List ChatEntry)) (userId : String) :
    List AppendOp → Except Unit (KVStore (List ChatEntry))
  | [] => .ok kv
  | op :: rest =>
    match (match op with
          | .userMsg c n => addUserMessage cfg kv userId c n
          | .assistantMsg c n => addAssistantMessage cfg kv userId c n) with
    | .error e => .error e
    | .ok (kv2, _) => applyAppends cfg kv2 userId rest

/-- The last `n` entries of a list (JavaScript `slice(-n)` on a list
longer than `n`). -/
def lastN (n : Nat) (l : List ChatEntry) : List ChatEntry :=
  l.drop (l.length - n)

/-! ## Helper lemmas -/

theorem markMessageAsProcessed_ok (kv : KVStore ProcessingRecord) (msgId : String)
    (now : Nat) (b : Bool) (hp : kv.putFails (messageKey msgId) = false) :
    markMessageAsProcessed kv msgId now b =
      .ok ⟨(messageKey msgId, ⟨msgId, now, b⟩) :: kv.entries,
           kv.getFails, kv.putFails⟩ := by
  simp [markMessageAsProcessed, kvPut, hp]

theorem isMessageProcessed_self (entries : List (String × ProcessingRecord))
    (gf pf : String → Bool) (msgId : String) (v : ProcessingRecord)
    (hg : gf (messageKey msgId) = false) :
    isMessageProcessed ⟨(messageKey msgId, v) :: entries, gf, pf⟩ msgId = true := by
  simp [isMessageProcessed, kvGet, hg, List.lookup]

theorem isMessageProcessed_mono_cons (kv : KVStore ProcessingRecord)
    (k : String) (v : ProcessingRecord) (msgId : String)
    (h : isMessageProcessed kv msgId = true) :
    isMessageProcessed ⟨(k, v) :: kv.entries, kv.getFails, kv.putFails⟩ msgId = true := by
  unfold isMessageProcessed kvGet at h ⊢
  by_cases hg : kv.getFails (messageKey msgId) = true
  · simp [hg] at h
  · simp only [hg, Bool.false_eq_true, if_false] at h ⊢
    rcases hbeq : messageKey msgId == k with _ | _ <;>
      simp [List.lookup, hbeq, h]

/-- The catch block of `processUserMessage`, when the failure write goes
through: the apology is sent and the message id is marked failed. -/
theorem processUserMessageCatch_ok (touser openKfid msgId : String) (now : Nat)
    (s : SysState) (evs : List SendEvent)
    (hp : s.tracker.putFails (messageKey msgId) = false) :
    processUserMessageCatch touser openKfid msgId now s evs =
      ({ s with tracker := ⟨(messageKey msgId, ⟨msgId, now, false⟩) :: s.tracker.entries,
           s.tracker.getFails, s.tracker.putFails⟩ },
       evs ++ [.textSent touser openKfid errorMessageText], false) := by
  simp [processUserMessageCatch, markMessageAsProcessed_ok _ _ _ _ hp]

/-- The catch block again, phrased on the components of the state (the
shape in which it appears inside `processUserMessage`). -/
theorem processUserMessageCatch_ok2 (touser openKfid msgId : String) (now : Nat)
    (tr : KVStore ProcessingRecord) (cv : KVStore (List ChatEntry))
    (evs : List SendEvent) (hp : tr.putFails (messageKey msgId) = false) :
    processUserMessageCatch touser openKfid msgId now ⟨tr, cv⟩ evs =
      (⟨⟨(messageKey msgId, ⟨msgId, now, false⟩) :: tr.entries,
          tr.getFails, tr.putFails⟩, cv⟩,
       evs ++ [.textSent touser openKfid errorMessageText], false) := by
  simp [processUserMessageCatch, markMessageAsProcessed_ok _ _ _ _ hp]

/-- If the message id was already marked in the ledger, the per-message
pipeline stops at the dedup gate: no events, no state change, no throw. -/
theorem processUserMessage_skip (ai : List AiMessage → Option (List Char))
    (cfg : ConvConfig) (uid : String) (content : List Char) (msgId kf : String)
    (s : SysState) (now : Nat) (h : isMessageProcessed s.tracker msgId = true) :
    processUserMessage ai cfg uid content msgId kf s now = (s, [], false) := by
  simp [processUserMessage, h]

/-- Whatever the AI and the conversation store do, if the tracker reads
and writes on the message key work, `processUserMessage` never throws,
leaves the message id marked, and preserves the tracker failure
behaviour. -/
theorem processUserMessage_marks (ai : List AiMessage → Option (List Char))
    (cfg : ConvConfig) (uid : String) (content : List Char) (msgId kf : String)
    (s : SysState) (now : Nat)
    (hg : s.tracker.getFails (messageKey msgId) = false)
    (hp : s.tracker.putFails (messageKey msgId) = false) :
    (processUserMessage ai cfg uid content msgId kf s now).2.2 = false ∧
    isMessageProcessed (processUserMessage ai cfg uid content msgId kf s now).1.tracker
      msgId = true ∧
    (processUserMessage ai cfg uid content msgId kf s now).1.tracker.getFails
      = s.tracker.getFails ∧
    (processUserMessage ai cfg uid content msgId kf s now).1.tracker.putFails
      = s.tracker.putFails := by
  by_cases hgate : isMessageProcessed s.tracker msgId = true
  · rw [processUserMessage_skip ai cfg uid content msgId kf s now hgate]
    exact ⟨rfl, hgate, rfl, rfl⟩
  · have hgate' : isMessageProcessed s.tracker msgId = false :=
      Bool.not_eq_true _ ▸ eq_false_of_ne_true hgate
    unfold processUserMessage
    simp only [hgate', Bool.false_eq_true, if_false]
    split
    · rw [processUserMessageCatch_ok _ _ _ _ _ _ hp]
      exact ⟨rfl, isMessageProcessed_self _ _ _ _ _ hg, rfl, rfl⟩
    · split
      · rw [processUserMessageCatch_ok2 _ _ _ _ _ _ _ hp]
        exact ⟨rfl, isMessageProcessed_self _ _ _ _ _ hg, rfl, rfl⟩
      · split
        · rw [processUserMessageCatch_ok2 _ _ _ _ _ _ _ hp]
          exact ⟨rfl, isMessageProcessed_self _ _ _ _ _ hg, rfl, rfl⟩
        · split
          · rw [processUserMessageCatch_ok2 _ _ _ _ _ _ _ hp]
            exact ⟨rfl, isMessageProcessed_self _ _ _ _ _ hg, rfl, rfl⟩
          · split
            · rename_i tr heq
              rw [markMessageAsProcessed_ok _ _ _ _ hp] at heq
              injection heq with htr
              subst htr
              exact ⟨rfl, isMessageProcessed_self _ _ _ _ _ hg, rfl, rfl⟩
            · rename_i a heq
              rw [markMessageAsProcessed_ok _ _ _ _ hp] at heq
              cases heq

/-- On `ret ≠ 0` from `decryptMsg`, `handleCallbackAsync` returns at once:
no events, no state change (in particular no ledger write). -/
theorem handleCallbackAsync_decryptFail (w : CallbackWorld) (cfg : ConvConfig)
    (msgSignature : String) (s : SysState) (now : Nat) (h : w.decryptRet ≠ 0) :
    handleCallbackAsync w cfg msgSignature s now = (s, []) := by
  simp [handleCallbackAsync, h]

/-- If the scan emitted a message under one tracker state, then under any
tracker state in which the id of that message is marked, the scan emits
nothing. -/
theorem getLatest_nil_of_marked (msgs : List RawMessage)
    (kv : KVStore ProcessingRecord) (em : EmittedMessage) (tl : List EmittedMessage)
    (h : getLatestTextMessagesFrom msgs kv = em :: tl)
    (kv2 : KVStore ProcessingRecord)
    (h2 : isMessageProcessed kv2 em.msgid = true) :
    getLatestTextMessagesFrom msgs kv2 = [] := by
  rcases hs : msgs.insertionSort byTimeDesc with _ | ⟨m, rest⟩
  · simp only [getLatestTextMessagesFrom, hs] at h
    exact absurd h (by simp)
  · simp only [getLatestTextMessagesFrom, hs] at h ⊢
    split_ifs at h with h1 hc hm
    obtain ⟨hx, -⟩ := List.cons_eq_cons.mp h
    rw [← hx] at h2
    simp only at h2
    simp [h1, hc, h2]

/-- If the scan emitted nothing, adding a record to the tracker still
yields nothing (records are never removed by a put). -/
theorem getLatest_nil_extend (msgs : List RawMessage) (kv : KVStore ProcessingRecord)
    (k : String) (v : ProcessingRecord)
    (h : getLatestTextMessagesFrom msgs kv = []) :
    getLatestTextMessagesFrom msgs
      ⟨(k, v) :: kv.entries, kv.getFails, kv.putFails⟩ = [] := by
  rcases hs : msgs.insertionSort byTimeDesc with _ | ⟨m, rest⟩
  · simp [getLatestTextMessagesFrom, hs]
  · simp only [getLatestTextMessagesFrom, hs] at h ⊢
    split_ifs at h with h1 hc hm
    · simp [h1, hc, isMessageProcessed_mono_cons kv k v m.msgid hm]
    · simp [h1, hc]
    · simp [h1]

theorem saveConversationHistory_ok (cfg : ConvConfig) (kv : KVStore (List ChatEntry))
    (userId : String) (history : List ChatEntry)
    (hcp : kv.putFails (conversationKey userId) = false) :
    ∃ t, saveConversationHistory cfg kv userId history =
      .ok (⟨(conversationKey userId, t) :: kv.entries, kv.getFails, kv.putFails⟩, t) :=
  ⟨if cfg.maxHistoryLength + 1 < history.length then
      history.take 1 ++ history.drop (history.length - cfg.maxHistoryLength)
    else history,
   by simp [saveConversationHistory, kvPut, hcp]⟩

/-- The fully successful path of the per-message pipeline: unprocessed
message, conversation writes succeed, AI returns a non-empty reply `r`,
and the final ledger write succeeds. -/
theorem processUserMessage_success (cfg : ConvConfig) (uid : String)
    (content : List Char) (msgId kf : String) (s : SysState) (r : List Char) (now : Nat)
    (hp : s.tracker.putFails (messageKey msgId) = false)
    (hcp : s.convs.putFails (conversationKey uid) = false)
    (hgate : isMessageProcessed s.tracker msgId = false)
    (hr : r ≠ []) :
    ∃ cv : KVStore (List ChatEntry),
      processUserMessage (fun _ => some r) cfg uid content msgId kf s now =
        (⟨⟨(messageKey msgId, ⟨msgId, now, true⟩) :: s.tracker.entries,
            s.tracker.getFails, s.tracker.putFails⟩, cv⟩,
         .procStart msgId :: dispatchReply uid kf msgId content r, false) := by
  obtain ⟨t1, h1⟩ := saveConversationHistory_ok cfg s.convs uid
    (getConversationHistory cfg s.convs uid ++ [⟨.user, content, some now⟩]) hcp
  have hCM : ConversationManager.processUserMessage cfg s.convs uid content now =
      .ok (⟨(conversationKey uid, t1) :: s.convs.entries,
            s.convs.getFails, s.convs.putFails⟩, t1,
           t1.map (fun e => ⟨e.role, e.content⟩)) := by
    simp [ConversationManager.processUserMessage, addUserMessage, h1]
  obtain ⟨t2, h2⟩ := saveConversationHistory_ok cfg
    ⟨(conversationKey uid, t1) :: s.convs.entries, s.convs.getFails, s.convs.putFails⟩
    uid (getConversationHistory cfg
      ⟨(conversationKey uid, t1) :: s.convs.entries, s.convs.getFails, s.convs.putFails⟩
        uid ++ [⟨.assistant, r, some now⟩]) hcp
  have hAdd : addAssistantMessage cfg
      ⟨(conversationKey uid, t1) :: s.convs.entries, s.convs.getFails, s.convs.putFails⟩
      uid r now =
      .ok (⟨(conversationKey uid, t2) ::
              (conversationKey uid, t1) :: s.convs.entries,
            s.convs.getFails, s.convs.putFails⟩, t2) := by
    simp [addAssistantMessage, h2]
  refine ⟨⟨(conversationKey uid, t2) :: (conversationKey uid, t1) :: s.convs.entries,
    s.convs.getFails, s.convs.putFails⟩, ?_⟩
  unfold processUserMessage
  simp only [hgate, Bool.false_eq_true, if_false, hCM, hAdd, if_neg hr,
    markMessageAsProcessed_ok s.tracker msgId now true hp]

/-- When the scan finds nothing, a callback run emits no events at all,
whatever the ledger writes do. -/
theorem handleCallbackAsync_no_events_of_nil (w : CallbackWorld) (cfg : ConvConfig)
    (sig : String) (s : SysState) (now : Nat)
    (hL : getLatestTextMessagesFrom w.mailbox s.tracker = []) :
    (handleCallbackAsync w cfg sig s now).2 = [] := by
  unfold handleCallbackAsync
  by_cases hd : w.decryptRet ≠ 0
  · simp [hd]
  · simp only [hd, if_false, hL, Bool.false_eq_true]
    repeat' split
    all_goals rfl

/-- After any callback run over a tracker whose reads and writes succeed
(and a successful decrypt), the scan over the same mailbox finds nothing,
and the failure behaviour of the tracker is unchanged. -/
theorem handleCallbackAsync_ok_shape (w : CallbackWorld) (cfg : ConvConfig)
    (sig : String) (s : SysState) (now : Nat)
    (hg : ∀ k, s.tracker.getFails k = false)
    (hp : ∀ k, s.tracker.putFails k = false) :
    getLatestTextMessagesFrom w.mailbox (handleCallbackAsync w cfg sig s now).1.tracker
        = [] ∨ w.decryptRet ≠ 0 := by
  by_cases hd : w.decryptRet ≠ 0
  · exact Or.inr hd
  · left
    unfold handleCallbackAsync
    simp only [hd, if_false]
    rcases hL : getLatestTextMessagesFrom w.mailbox s.tracker with _ | ⟨em, tl⟩
    · simp only [hL, Bool.false_eq_true, if_false,
        markMessageAsProcessed_ok s.tracker sig now true (hp (messageKey sig))]
      exact getLatest_nil_extend _ _ _ _ hL
    · simp only [hL]
      rcases hP : processUserMessage w.ai cfg em.externalUserid em.content em.msgid
        w.kfId s now with ⟨s1, ev1, threw⟩
      have hm := processUserMessage_marks w.ai cfg em.externalUserid em.content
        em.msgid w.kfId s now (hg _) (hp _)
      rw [hP] at hm
      obtain ⟨hthrew, hmk, hgf, hpf⟩ := hm
      simp only at hthrew hmk hgf hpf
      subst hthrew
      have hp1 : s1.tracker.putFails (messageKey sig) = false := by
        rw [hpf]; exact hp _
      simp only [Bool.false_eq_true, if_false,
        markMessageAsProcessed_ok s1.tracker sig now true hp1]
      exact getLatest_nil_of_marked _ _ _ _ hL _
        (isMessageProcessed_mono_cons s1.tracker _ _ _ hmk)

theorem isMessageProcessed_of_getFails (kv : KVStore ProcessingRecord) (msgId : String)
    (h : kv.getFails (messageKey msgId) = true) :
    isMessageProcessed kv msgId = false := by
  simp [isMessageProcessed, kvGet, h]

theorem markMessageAsProcessed_of_putFails (kv : KVStore ProcessingRecord)
    (msgId : String) (now : Nat) (success : Bool)
    (h : kv.putFails (messageKey msgId) = true) :
    markMessageAsProcessed kv msgId now success = .error () := by
  simp [markMessageAsProcessed, kvPut, h]

/-- A remote that never offers a falsy cursor and never returns an empty
page keeps the `syncAllMessages` loop running whatever the fuel. -/
theorem syncAllMessagesFuel_none_of_always_more (remote : Option String → SyncPage)
    (h : ∀ c, cursorFalsy (remote c).next_cursor = false ∧ (remote c).msg_list ≠ []) :
    ∀ (fuel : Nat) (cursor : Option String) (acc : List RawMessage),
      syncAllMessagesFuel remote fuel cursor acc = none := by
  intro fuel
  induction fuel with
  | zero => intro cursor acc; rfl
  | succ n ih =>
    intro cursor acc
    have h1 := (h cursor).1
    have h2 := (h cursor).2
    simp [syncAllMessagesFuel, h1, h2, ih]

/-! ## C6 -/

/-- C6: Ledger reads fail open and writes fail loud.  If the underlying
get fails, `isMessageProcessed` returns `false` instead of raising;
`checkMultipleMessages` still answers for every id of the batch and maps
each individually failing id to `false`; if the underlying put fails,
`markMessageAsProcessed` propagates the error to the caller. -/
theorem c6_ledger_failOpen_reads_failLoud_writes :
    (∀ (kv : KVStore ProcessingRecord) (msgId : String),
      kv.getFails (messageKey msgId) = true → isMessageProcessed kv msgId = false) ∧
    (∀ (kv : KVStore ProcessingRecord) (msgIds : List String),
      (checkMultipleMessages kv msgIds).map Prod.fst = msgIds ∧
      ∀ msgId ∈ msgIds, kv.getFails (messageKey msgId) = true →
        (msgId, false) ∈ checkMultipleMessages kv msgIds) ∧
    (∀ (kv : KVStore ProcessingRecord) (msgId : String) (now : Nat) (success : Bool),
      kv.putFails (messageKey msgId) = true →
      markMessageAsProcessed kv msgId now success = .error ()) := by
  refine ⟨isMessageProcessed_of_getFails, fun kv msgIds => ⟨?_, ?_⟩,
    markMessageAsProcessed_of_putFails⟩
  · simp [checkMultipleMessages, Function.comp_def]
  · intro msgId hmem hfail
    have : (msgId, isMessageProcessed kv msgId) ∈ checkMultipleMessages kv msgIds :=
      List.mem_map_of_mem _ hmem
    rwa [isMessageProcessed_of_getFails kv msgId hfail] at this

/-- C6 witness: concrete stores exercising all three parts. -/
theorem c6_witness :
    isMessageProcessed ⟨[], fun _ => true, fun _ => false⟩ "m1" = false ∧
    ((checkMultipleMessages ⟨[], fun _ => true, fun _ => false⟩ ["m1"]).map Prod.fst
        = ["m1"] ∧
      ("m1", false) ∈ checkMultipleMessages ⟨[], fun _ => true, fun _ => false⟩ ["m1"]) ∧
    markMessageAsProcessed ⟨[], fun _ => false, fun _ => true⟩ "m1" 7 true = .error () :=
  ⟨c6_ledger_failOpen_reads_failLoud_writes.1 _ "m1" rfl,
   ⟨(c6_ledger_failOpen_reads_failLoud_writes.2.1 _ ["m1"]).1,
    (c6_ledger_failOpen_reads_failLoud_writes.2.1 _ ["m1"]).2 "m1" (by simp) rfl⟩,
   c6_ledger_failOpen_reads_failLoud_writes.2.2 _ "m1" 7 true rfl⟩

/-! ## C7 -/

/-- C7: `getConversationHistory` is total (the source wraps everything in
try/catch and the embedding is a total function), its first entry is
always a system entry carrying the currently configured prompt, on a
storage read failure it returns exactly the preamble-only window, and a
stored stale leading system entry is stripped and replaced by the current
preamble. -/
theorem c7_getWindow_preamble :
    (∀ (cfg : ConvConfig) (kv : KVStore (List ChatEntry)) (userId : String),
      (getConversationHistory cfg kv userId).head? = some (systemEntry cfg)) ∧
    (∀ (cfg : ConvConfig) (kv : KVStore (List ChatEntry)) (userId : String),
      kv.getFails (conversationKey userId) = true →
      getConversationHistory cfg kv userId = [systemEntry cfg]) ∧
    (∀ (cfg : ConvConfig) (kv : KVStore (List ChatEntry)) (userId : String)
      (e : ChatEntry) (rest : List ChatEntry),
      kv.getFails (conversationKey userId) = false →
      kv.entries.lookup (conversationKey userId) = some (e :: rest) →
      e.role = ChatRole.system →
      getConversationHistory cfg kv userId = systemEntry cfg :: rest) := by
  refine ⟨fun cfg kv userId => ?_, fun cfg kv userId h => ?_,
    fun cfg kv userId e rest hg hl hrole => ?_⟩
  · unfold getConversationHistory kvGet
    rcases hg : kv.getFails (conversationKey userId) with _ | _
    · simp only [hg, Bool.false_eq_true, if_false]
      rcases hl : kv.entries.lookup (conversationKey userId) with _ | stored
      · rfl
      · rcases stored with _ | ⟨e, rest⟩
        · rfl
        · by_cases hr : e.role = ChatRole.system <;> simp [hr]
    · simp [hg]
  · simp [getConversationHistory, kvGet, h]
  · simp [getConversationHistory, kvGet, hg, hl, hrole]

/-- C7 witness: a fresh store, a failing store, and a store holding a
stale system entry. -/
theorem c7_witness :
    (getConversationHistory ⟨3, "now".data⟩ ⟨[], fun _ => false, fun _ => false⟩
        "u1").head? = some (systemEntry ⟨3, "now".data⟩) ∧
    getConversationHistory ⟨3, "now".data⟩ ⟨[], fun _ => true, fun _ => false⟩ "u1"
      = [systemEntry ⟨3, "now".data⟩] ∧
    getConversationHistory ⟨3, "now".data⟩
      ⟨[(conversationKey "u1", [⟨ChatRole.system, "old".data, none⟩,
          ⟨ChatRole.user, "hi".data, some 5⟩])], fun _ => false, fun _ => false⟩ "u1"
      = systemEntry ⟨3, "now".data⟩ :: [⟨ChatRole.user, "hi".data, some 5⟩] :=
  ⟨c7_getWindow_preamble.1 _ _ "u1",
   c7_getWindow_preamble.2.1 _ _ "u1" rfl,
   c7_getWindow_preamble.2.2 _ _ "u1" ⟨ChatRole.system, "old".data, none⟩ _ rfl
     (by simp [conversationKey]) rfl⟩

/-! ## C8 -/

/-- C8 counterexample: on a signature/decrypt failure (`ret = -40001`,
returned by `decryptMsg`, which never throws) `handleCallbackAsync` sends
nothing but also leaves the ledger completely untouched — in particular
the call-level id `sig1` is NOT marked as failed, contradicting the claim
that authentication failure marks the call-level id in the Ledger. -/
theorem c8_counterexample :
    handleCallbackAsync ⟨-40001, "kf1", [], fun _ => none⟩ ⟨10, []⟩ "sig1"
        ⟨⟨[], fun _ => false, fun _ => false⟩, ⟨[], fun _ => false, fun _ => false⟩⟩ 0
      = (⟨⟨[], fun _ => false, fun _ => false⟩, ⟨[], fun _ => false, fun _ => false⟩⟩, []) ∧
    isMessageProcessed
      (handleCallbackAsync ⟨-40001, "kf1", [], fun _ => none⟩ ⟨10, []⟩ "sig1"
        ⟨⟨[], fun _ => false, fun _ => false⟩, ⟨[], fun _ => false, fun _ => false⟩⟩ 0).1.tracker
      "sig1" = false := by
  constructor
  · rfl
  · rfl

/-- C8 (amended): whenever authentication/decryption of the inbound
envelope fails (`decryptMsg` returns `ret ≠ 0`), the orchestrator stops
without sending any reply — but it writes nothing to the Ledger: the
call-level id is not marked as failed (the `ret !== 0` branch returns
before any marking, and `decryptMsg` never throws, so the catch block that
would mark the call id is not reached). -/
theorem c8_amended (w : CallbackWorld) (cfg : ConvConfig) (msgSignature : String)
    (s : SysState) (now : Nat) (h : w.decryptRet ≠ 0) :
    handleCallbackAsync w cfg msgSignature s now = (s, []) := by
  simp [handleCallbackAsync, h]

/-- C8 amended witness. -/
theorem c8_amended_witness :
    (-40001 : Int) ≠ 0 ∧
    handleCallbackAsync ⟨-40001, "kf2", [], fun _ => none⟩ ⟨10, []⟩ "sig9"
        ⟨⟨[], fun _ => false, fun _ => false⟩, ⟨[], fun _ => false, fun _ => false⟩⟩ 3
      = (⟨⟨[], fun _ => false, fun _ => false⟩, ⟨[], fun _ => false, fun _ => false⟩⟩, []) :=
  ⟨by decide, c8_amended _ _ "sig9" _ 3 (by decide)⟩

/-! ## C10 -/

/-- C10 counterexample: against a remote that always returns a non-empty
page together with a next cursor, the `syncAllMessages` loop is still
running after 1000 page fetches — there is no defensive iteration cap in
the implementation. -/
theorem c10_counterexample :
    syncAllMessagesFuel (fun _ => ⟨[⟨"text", some 1, some "x".data, "m", "u"⟩], some "c"⟩)
      1000 none [] = none :=
  syncAllMessagesFuel_none_of_always_more _
    (fun _ => ⟨by decide, by decide⟩) 1000 none []

/-- C10 (amended): the cursor-pagination accumulation loop of
`syncAllMessages` has no defensive iteration cap; it terminates only when
the remote returns a falsy cursor or an empty page.  Against a remote that
always returns a non-empty page with a non-empty next cursor, no finite
number of page fetches completes the loop. -/
theorem c10_amended (remote : Option String → SyncPage)
    (h : ∀ c, cursorFalsy (remote c).next_cursor = false ∧ (remote c).msg_list ≠ [])
    (fuel : Nat) (cursor : Option String) (acc : List RawMessage) :
    syncAllMessagesFuel remote fuel cursor acc = none :=
  syncAllMessagesFuel_none_of_always_more remote h fuel cursor acc

/-- C10 amended witness. -/
theorem c10_amended_witness :
    syncAllMessagesFuel
      (fun _ => SyncPage.mk [⟨"text", some 2, some "y".data, "m2", "u2"⟩] (some "k"))
      7 (some "start") [] = none := by
  have h : ∀ c : Option String,
      cursorFalsy ((fun (_ : Option String) =>
          SyncPage.mk [⟨"text", some 2, some "y".data, "m2", "u2"⟩] (some "k"))
            c).next_cursor = false ∧
      ((fun (_ : Option String) =>
          SyncPage.mk [⟨"text", some 2, some "y".data, "m2", "u2"⟩] (some "k"))
            c).msg_list ≠ [] := by
    intro c
    refine ⟨?_, by simp⟩
    simp only [cursorFalsy]
    decide
  exact c10_amended _ h 7 (some "start") []

/-! ## C9 -/

/-- The head of the descending stable sort is a maximal-send-time element
of the batch. -/
theorem sortedDesc_head_max (msgs : List RawMessage) (m : RawMessage)
    (rest : List RawMessage) (h : msgs.insertionSort byTimeDesc = m :: rest) :
    m ∈ msgs ∧ ∀ m2 ∈ msgs, sendKey m2 ≤ sendKey m := by
  have hperm := List.perm_insertionSort byTimeDesc msgs
  have hsorted := List.sorted_insertionSort byTimeDesc msgs
  rw [h] at hperm hsorted
  refine ⟨hperm.mem_iff.mp (List.mem_cons_self m rest), fun m2 hm2 => ?_⟩
  have hmem : m2 ∈ m :: rest := hperm.mem_iff.mpr hm2
  rcases List.mem_cons.mp hmem with heq | htail
  · exact le_of_eq (congrArg sendKey heq)
  · exact List.rel_of_sorted_cons hsorted m2 htail

/-- C9: the synchronizer scan sorts the batch descending by send time
and emits at most one message; any emitted message is the newest of the
whole batch (the loop body ends in an unconditional `break`, so only the
sorted head is ever examined); and in the two-message scenario with send
times `t1 < t2`, both messages being unprocessed text messages with
non-empty content and id, exactly the `t2` message is emitted, in either
arrival order. -/
theorem c9_scan_single_newest :
    (∀ (msgs : List RawMessage) (tracker : KVStore ProcessingRecord),
      (getLatestTextMessagesFrom msgs tracker).length ≤ 1) ∧
    (∀ (msgs : List RawMessage) (tracker : KVStore ProcessingRecord)
      (em : EmittedMessage), em ∈ getLatestTextMessagesFrom msgs tracker →
      em.originalMessage ∈ msgs ∧
        ∀ m2 ∈ msgs, sendKey m2 ≤ sendKey em.originalMessage) ∧
    (∀ (tracker : KVStore ProcessingRecord) (m1 m2 : RawMessage),
      m1.msgtype = "text" → m2.msgtype = "text" →
      m2.text.getD [] ≠ [] → m2.msgid ≠ "" →
      isMessageProcessed tracker m1.msgid = false →
      isMessageProcessed tracker m2.msgid = false →
      sendKey m1 < sendKey m2 →
      getLatestTextMessagesFrom [m1, m2] tracker
          = [⟨m2.text.getD [], m2.msgid, m2.external_userid, m2⟩] ∧
      getLatestTextMessagesFrom [m2, m1] tracker
          = [⟨m2.text.getD [], m2.msgid, m2.external_userid, m2⟩]) := by
  refine ⟨fun msgs tracker => ?_, fun msgs tracker em hmem => ?_,
    fun tracker m1 m2 h1t h2t h2c h2i h1p h2p hlt => ?_⟩
  · rcases hs : msgs.insertionSort byTimeDesc with _ | ⟨m, rest⟩
    · simp [getLatestTextMessagesFrom, hs]
    · simp only [getLatestTextMessagesFrom, hs]
      split_ifs <;> simp
  · rcases hs : msgs.insertionSort byTimeDesc with _ | ⟨m, rest⟩
    · simp [getLatestTextMessagesFrom, hs] at hmem
    · have hhead := sortedDesc_head_max msgs m rest hs
      simp only [getLatestTextMessagesFrom, hs] at hmem
      split_ifs at hmem <;> simp at hmem
      rw [hmem]
      exact hhead
  · have hneg : ¬ byTimeDesc m1 m2 := by
      show ¬ (sendKey m2 ≤ sendKey m1)
      omega
    have hpos : byTimeDesc m2 m1 := by
      show sendKey m1 ≤ sendKey m2
      omega
    have hsort1 : ([m1, m2] : List RawMessage).insertionSort byTimeDesc = [m2, m1] := by
      simp [List.insertionSort, List.orderedInsert, hneg]
    have hsort2 : ([m2, m1] : List RawMessage).insertionSort byTimeDesc = [m2, m1] := by
      simp [List.insertionSort, List.orderedInsert, hpos]
    constructor
    · simp only [getLatestTextMessagesFrom, hsort1]
      simp [h2t, h2c, h2i, h2p]
    · simp only [getLatestTextMessagesFrom, hsort2]
      simp [h2t, h2c, h2i, h2p]

/-- C9 witness: two-message batch with send times 50 and 100; only the
newer message is emitted, in either order. -/
theorem c9_witness :
    getLatestTextMessagesFrom
        [⟨"text", some 50, some "old".data, "mOld", "u1"⟩,
         ⟨"text", some 100, some "new".data, "mNew", "u1"⟩]
        ⟨[], fun _ => false, fun _ => false⟩
      = [⟨"new".data, "mNew", "u1", ⟨"text", some 100, some "new".data, "mNew", "u1"⟩⟩] ∧
    getLatestTextMessagesFrom
        [⟨"text", some 100, some "new".data, "mNew", "u1"⟩,
         ⟨"text", some 50, some "old".data, "mOld", "u1"⟩]
        ⟨[], fun _ => false, fun _ => false⟩
      = [⟨"new".data, "mNew", "u1", ⟨"text", some 100, some "new".data, "mNew", "u1"⟩⟩] :=
  c9_scan_single_newest.2.2 ⟨[], fun _ => false, fun _ => false⟩
    ⟨"text", some 50, some "old".data, "mOld", "u1"⟩
    ⟨"text", some 100, some "new".data, "mNew", "u1"⟩
    rfl rfl (by decide) (by decide) rfl rfl (by decide)

/-! ## C1 -/

/-- C1 counterexample: a run in which the ledger write for the message
key fails (the KV `put` throws) but the call-level write succeeds.  The
first run completes and records the call-level id `sig1` (with
`success: false`), exactly as the hypothesis of the claim requires — yet a
repeated webhook delivery with the same call id runs the per-message
pipeline again (`procStart` event) and sends two further outbound text
replies.  `handleCallbackAsync` never reads the call-level record, so
recording it does not make a replay a no-op. -/
theorem c1_counterexample :
    (isMessageProcessed
      (handleCallbackAsync
        ⟨0, "kf1", [⟨"text", some 100, some "hello".data, "mid1", "user1"⟩],
          fun _ => some "hi".data⟩
        ⟨10, "you are helpful assistant".data⟩ "sig1"
        ⟨⟨[], fun _ => false, fun k => k == messageKey "mid1"⟩,
         ⟨[], fun _ => false, fun _ => false⟩⟩ 1000).1.tracker "sig1" = true) ∧
    ((handleCallbackAsync
        ⟨0, "kf1", [⟨"text", some 100, some "hello".data, "mid1", "user1"⟩],
          fun _ => some "hi".data⟩
        ⟨10, "you are helpful assistant".data⟩ "sig1"
        (handleCallbackAsync
          ⟨0, "kf1", [⟨"text", some 100, some "hello".data, "mid1", "user1"⟩],
            fun _ => some "hi".data⟩
          ⟨10, "you are helpful assistant".data⟩ "sig1"
          ⟨⟨[], fun _ => false, fun k => k == messageKey "mid1"⟩,
           ⟨[], fun _ => false, fun _ => false⟩⟩ 1000).1 2000).2.countP isTextSend = 2) ∧
    (SendEvent.procStart "mid1" ∈
      (handleCallbackAsync
        ⟨0, "kf1", [⟨"text", some 100, some "hello".data, "mid1", "user1"⟩],
          fun _ => some "hi".data⟩
        ⟨10, "you are helpful assistant".data⟩ "sig1"
        (handleCallbackAsync
          ⟨0, "kf1", [⟨"text", some 100, some "hello".data, "mid1", "user1"⟩],
            fun _ => some "hi".data⟩
          ⟨10, "you are helpful assistant".data⟩ "sig1"
          ⟨⟨[], fun _ => false, fun k => k == messageKey "mid1"⟩,
           ⟨[], fun _ => false, fun _ => false⟩⟩ 1000).1 2000).2) := by
  refine ⟨by decide, by decide, by decide⟩

/-- C1 (amended): a repeated webhook delivery is a no-op (no message
processing, no outbound sends, an empty event trace) provided the
ledger reads and writes succeed — because then the first run always
records the MESSAGE-level id (or found no message to process), and it is
that record, not the call-level one (which is written but never read),
that stops the replay. -/
theorem c1_amended (w : CallbackWorld) (cfg : ConvConfig) (sig : String)
    (s0 : SysState) (n1 n2 : Nat)
    (hg : ∀ k, s0.tracker.getFails k = false)
    (hp : ∀ k, s0.tracker.putFails k = false) :
    (handleCallbackAsync w cfg sig (handleCallbackAsync w cfg sig s0 n1).1 n2).2 = [] := by
  rcases handleCallbackAsync_ok_shape w cfg sig s0 n1 hg hp with hnil | hne
  · exact handleCallbackAsync_no_events_of_nil w cfg sig _ n2 hnil
  · rw [handleCallbackAsync_decryptFail w cfg sig s0 n1 hne]
    show (handleCallbackAsync w cfg sig s0 n2).2 = []
    rw [handleCallbackAsync_decryptFail w cfg sig s0 n2 hne]

/-- C1 amended witness: with a fully working ledger the replay of the
callback emits nothing. -/
theorem c1_amended_witness :
    (handleCallbackAsync
      ⟨0, "kf1", [⟨"text", some 100, some "hello".data, "mid1", "user1"⟩],
        fun _ => some "hi".data⟩
      ⟨10, "you are helpful assistant".data⟩ "sig1"
      (handleCallbackAsync
        ⟨0, "kf1", [⟨"text", some 100, some "hello".data, "mid1", "user1"⟩],
          fun _ => some "hi".data⟩
        ⟨10, "you are helpful assistant".data⟩ "sig1"
        ⟨⟨[], fun _ => false, fun _ => false⟩,
         ⟨[], fun _ => false, fun _ => false⟩⟩ 1000).1 2000).2 = [] :=
  c1_amended _ _ "sig1" _ 1000 2000 (fun _ => rfl) (fun _ => rfl)

/-! ## C2 -/

/-- C2: message-level idempotency of the orchestrator.  First, whenever
the ledger already holds the message id, `processUserMessage` stops
silently: it emits no events (no sends, no processing marker) and leaves
both stores untouched.  Second, running the pipeline twice sequentially
on the same message (ledger reads/writes and conversation writes
working, the AI returning a fixed non-empty reply that fits in one
chunk) sends exactly one outbound text in the first run, and the second
run returns `(state, [], no-throw)`: it sends nothing and does not touch
the conversation window. -/
theorem c2_second_run_silent :
    (∀ (ai : List AiMessage → Option (List Char)) (cfg : ConvConfig)
       (uid : String) (content : List Char) (msgId kf : String)
       (s : SysState) (now : Nat),
      isMessageProcessed s.tracker msgId = true →
      processUserMessage ai cfg uid content msgId kf s now = (s, [], false)) ∧
    (∀ (cfg : ConvConfig) (uid : String) (content : List Char) (msgId kf : String)
       (s : SysState) (r : List Char) (n1 n2 : Nat),
      s.tracker.getFails (messageKey msgId) = false →
      s.tracker.putFails (messageKey msgId) = false →
      s.convs.putFails (conversationKey uid) = false →
      isMessageProcessed s.tracker msgId = false →
      r ≠ [] → r.length ≤ messageChunkSize →
      ((processUserMessage (fun _ => some r) cfg uid content msgId kf s n1).2.1.countP
          isTextSend = 1) ∧
      processUserMessage (fun _ => some r) cfg uid content msgId kf
          (processUserMessage (fun _ => some r) cfg uid content msgId kf s n1).1 n2
        = ((processUserMessage (fun _ => some r) cfg uid content msgId kf s n1).1,
           [], false)) := by
  refine ⟨processUserMessage_skip, ?_⟩
  intro cfg uid content msgId kf s r n1 n2 hg hp hcp hgate hr hlen
  obtain ⟨cv, hrun⟩ := processUserMessage_success cfg uid content msgId kf s r n1
    hp hcp hgate hr
  rw [hrun]
  constructor
  · simp [dispatchReply, Nat.not_lt.mpr hlen, isTextSend]
  · exact processUserMessage_skip _ _ _ _ _ _ _ _
      (isMessageProcessed_self _ _ _ _ _ hg)

/-- C2 witness: one concrete message processed twice; the first run sends
one text, the second run is a silent no-op. -/
theorem c2_witness :
    ((processUserMessage (fun _ => some "ok".data) ⟨10, "p".data⟩ "u1" "hi".data
        "m1" "kf1"
        ⟨⟨[], fun _ => false, fun _ => false⟩, ⟨[], fun _ => false, fun _ => false⟩⟩
        0).2.1.countP isTextSend = 1) ∧
    processUserMessage (fun _ => some "ok".data) ⟨10, "p".data⟩ "u1" "hi".data
        "m1" "kf1"
        ((processUserMessage (fun _ => some "ok".data) ⟨10, "p".data⟩ "u1" "hi".data
          "m1" "kf1"
          ⟨⟨[], fun _ => false, fun _ => false⟩, ⟨[], fun _ => false, fun _ => false⟩⟩
          0).1) 1
      = ((processUserMessage (fun _ => some "ok".data) ⟨10, "p".data⟩ "u1" "hi".data
          "m1" "kf1"
          ⟨⟨[], fun _ => false, fun _ => false⟩, ⟨[], fun _ => false, fun _ => false⟩⟩
          0).1, [], false) :=
  c2_second_run_silent.2 ⟨10, "p".data⟩ "u1" "hi".data "m1" "kf1"
    ⟨⟨[], fun _ => false, fun _ => false⟩, ⟨[], fun _ => false, fun _ => false⟩⟩
    "ok".data 0 1 rfl rfl rfl rfl (by decide) (by decide)

/-! ## C5 -/

theorem lastN_of_le (n : Nat) (l : List ChatEntry) (h : l.length ≤ n) :
    lastN n l = l := by
  unfold lastN
  rw [Nat.sub_eq_zero_of_le h, List.drop_zero]

theorem length_lastN (n : Nat) (l : List ChatEntry) :
    (lastN n l).length = l.length - (l.length - n) := by
  unfold lastN
  rw [List.length_drop]

/-- Trimming is insensitive to pre-trimming: keeping only the last `n`
entries before appending more does not change the final last-`n` slice. -/
theorem lastN_append_lastN (n : Nat) (a b : List ChatEntry) :
    lastN n (lastN n a ++ b) = lastN n (a ++ b) := by
  by_cases h : n ≤ a.length
  · unfold lastN
    rw [List.drop_append_eq_append_drop, List.drop_append_eq_append_drop,
      List.drop_drop]
    have hlen : (a.drop (a.length - n)).length = n := by
      rw [List.length_drop]; omega
    congr 1
    · congr 1
      simp only [List.length_append, List.length_drop]
      omega
    · congr 1
      simp only [List.length_append, List.length_drop]
      omega
  · rw [lastN_of_le n a (by omega)]

/-- The trim performed by `saveConversationHistory`, on a history of the
shape it always receives (current preamble, previous tail, new entry),
keeps the head entry and the last `max` other entries. -/
theorem trim_shape (max : Nat) (sysE ent : ChatEntry) (pre : List ChatEntry) :
    (if max + 1 < (sysE :: (pre ++ [ent])).length then
       (sysE :: (pre ++ [ent])).take 1 ++
         (sysE :: (pre ++ [ent])).drop ((sysE :: (pre ++ [ent])).length - max)
     else sysE :: (pre ++ [ent]))
    = sysE :: lastN max (pre ++ [ent]) := by
  by_cases h : max + 1 < (sysE :: (pre ++ [ent])).length
  · rw [if_pos h]
    simp only [List.length_cons] at h ⊢
    have h1 : (pre ++ [ent]).length + 1 - max = ((pre ++ [ent]).length - max) + 1 := by
      omega
    rw [h1]
    simp [lastN]
  · rw [if_neg h]
    simp only [List.length_cons] at h
    unfold lastN
    have h0 : (pre ++ [ent]).length - max = 0 := by omega
    rw [h0, List.drop_zero]

/-- Reading the window out of a store whose record starts with a system
entry strips it and re-injects the current preamble. -/
theorem getConversationHistory_of_lookup (cfg : ConvConfig)
    (kv : KVStore (List ChatEntry)) (userId : String) (e0 : ChatEntry)
    (pre : List ChatEntry)
    (hg : kv.getFails (conversationKey userId) = false)
    (hl : kv.entries.lookup (conversationKey userId) = some (e0 :: pre))
    (hrole : e0.role = ChatRole.system) :
    getConversationHistory cfg kv userId = systemEntry cfg :: pre := by
  simp [getConversationHistory, kvGet, hg, hl, hrole]

theorem getConversationHistory_of_none (cfg : ConvConfig)
    (kv : KVStore (List ChatEntry)) (userId : String)
    (hg : kv.getFails (conversationKey userId) = false)
    (hl : kv.entries.lookup (conversationKey userId) = none) :
    getConversationHistory cfg kv userId = [systemEntry cfg] := by
  simp [getConversationHistory, kvGet, hg, hl]

/-- One append (the common body of `addUserMessage`/`addAssistantMessage`)
on a well-formed window: the stored record becomes the current preamble
followed by the last `maxHistoryLength` entries. -/
theorem append_step (cfg : ConvConfig) (kv : KVStore (List ChatEntry))
    (userId : String) (pre : List ChatEntry) (e : ChatEntry)
    (hcp : kv.putFails (conversationKey userId) = false)
    (hw : getConversationHistory cfg kv userId = systemEntry cfg :: pre) :
    saveConversationHistory cfg kv userId
        (getConversationHistory cfg kv userId ++ [e]) =
      .ok (⟨(conversationKey userId,
              systemEntry cfg :: lastN cfg.maxHistoryLength (pre ++ [e]))
                :: kv.entries,
            kv.getFails, kv.putFails⟩,
           systemEntry cfg :: lastN cfg.maxHistoryLength (pre ++ [e])) := by
  rw [hw]
  unfold saveConversationHistory
  rw [show (systemEntry cfg :: pre) ++ [e] = systemEntry cfg :: (pre ++ [e]) by simp]
  rw [trim_shape]
  simp [kvPut, hcp]

/-- Running a sequence of appends from a well-formed window: the store
ends up holding the preamble plus the last `maxHistoryLength` appended
entries (preamble never evicted, oldest evicted first). -/
theorem applyAppends_window (cfg : ConvConfig) (uid : String) :
    ∀ (ops : List AppendOp) (kv : KVStore (List ChatEntry)) (pre : List ChatEntry),
    kv.getFails (conversationKey uid) = false →
    kv.putFails (conversationKey uid) = false →
    getConversationHistory cfg kv uid = systemEntry cfg :: pre →
    pre.length ≤ cfg.maxHistoryLength →
    ∃ kv2, applyAppends cfg kv uid ops = .ok kv2 ∧
      kv2.getFails = kv.getFails ∧
      kv2.putFails = kv.putFails ∧
      (ops = [] → kv2 = kv) ∧
      (ops ≠ [] →
        kv2.entries.lookup (conversationKey uid)
          = some (systemEntry cfg ::
              lastN cfg.maxHistoryLength (pre ++ ops.map opEntry)) ∧
        getConversationHistory cfg kv2 uid
          = systemEntry cfg ::
              lastN cfg.maxHistoryLength (pre ++ ops.map opEntry)) := by
  intro ops
  induction ops with
  | nil =>
    intro kv pre hg hp hw hlen
    exact ⟨kv, rfl, rfl, rfl, fun _ => rfl, fun hne => absurd rfl hne⟩
  | cons op rest ih =>
    intro kv pre hg hp hw hlen
    have hstep : (match op with
        | .userMsg c n => addUserMessage cfg kv uid c n
        | .assistantMsg c n => addAssistantMessage cfg kv uid c n) =
        .ok (⟨(conversationKey uid,
                systemEntry cfg :: lastN cfg.maxHistoryLength (pre ++ [opEntry op]))
                  :: kv.entries,
              kv.getFails, kv.putFails⟩,
             systemEntry cfg :: lastN cfg.maxHistoryLength (pre ++ [opEntry op])) := by
      rcases op with ⟨c, n⟩ | ⟨c, n⟩
      · exact append_step cfg kv uid pre ⟨.user, c, some n⟩ hp hw
      · exact append_step cfg kv uid pre ⟨.assistant, c, some n⟩ hp hw
    have hg1 : (⟨(conversationKey uid,
        systemEntry cfg :: lastN cfg.maxHistoryLength (pre ++ [opEntry op]))
          :: kv.entries, kv.getFails, kv.putFails⟩ :
          KVStore (List ChatEntry)).getFails (conversationKey uid) = false := hg
    have hp1 : (⟨(conversationKey uid,
        systemEntry cfg :: lastN cfg.maxHistoryLength (pre ++ [opEntry op]))
          :: kv.entries, kv.getFails, kv.putFails⟩ :
          KVStore (List ChatEntry)).putFails (conversationKey uid) = false := hp
    have hl1 : (⟨(conversationKey uid,
        systemEntry cfg :: lastN cfg.maxHistoryLength (pre ++ [opEntry op]))
          :: kv.entries, kv.getFails, kv.putFails⟩ :
          KVStore (List ChatEntry)).entries.lookup (conversationKey uid)
        = some (systemEntry cfg :: lastN cfg.maxHistoryLength (pre ++ [opEntry op])) := by
      simp [List.lookup]
    have hw1 := getConversationHistory_of_lookup cfg _ uid _ _ hg1 hl1 rfl
    have hlen1 : (lastN cfg.maxHistoryLength (pre ++ [opEntry op])).length
        ≤ cfg.maxHistoryLength := by
      rw [length_lastN]; omega
    obtain ⟨kv2, happ, hgf, hpf, hnilc, hconsc⟩ :=
      ih _ (lastN cfg.maxHistoryLength (pre ++ [opEntry op])) hg1 hp1 hw1 hlen1
    refine ⟨kv2, ?_, by rw [hgf], by rw [hpf],
      fun hcon => absurd hcon (by simp), fun _ => ?_⟩
    · simp only [applyAppends, hstep]
      exact happ
    · rcases rest with _ | ⟨op2, rest2⟩
      · rw [hnilc rfl]
        exact ⟨hl1, hw1⟩
      · obtain ⟨hlk2, hw2⟩ := hconsc (by simp)
        have hsh : (pre ++ [opEntry op]) ++ (op2 :: rest2).map opEntry
            = pre ++ (op :: op2 :: rest2).map opEntry := by simp
        rw [lastN_append_lastN, hsh] at hlk2 hw2
        exact ⟨hlk2, hw2⟩

/-- C5: for every user, starting from an empty stored history, after
`n > maxHistoryLength` append operations the persisted record holds the
preamble plus exactly the last `maxHistoryLength` appended (non-system)
entries, in order (FIFO eviction, preamble kept), and `getWindow`
(`getConversationHistory`) returns exactly `1 + maxHistoryLength` entries
whose first entry is the system preamble. -/
theorem c5_window_cap (cfg : ConvConfig) (kv : KVStore (List ChatEntry))
    (uid : String) (ops : List AppendOp)
    (hg : kv.getFails (conversationKey uid) = false)
    (hp : kv.putFails (conversationKey uid) = false)
    (hempty : kv.entries.lookup (conversationKey uid) = none)
    (hn : cfg.maxHistoryLength < ops.length) :
    ∃ kv2, applyAppends cfg kv uid ops = .ok kv2 ∧
      kv2.entries.lookup (conversationKey uid)
        = some (systemEntry cfg ::
            (ops.map opEntry).drop (ops.length - cfg.maxHistoryLength)) ∧
      getConversationHistory cfg kv2 uid
        = systemEntry cfg ::
            (ops.map opEntry).drop (ops.length - cfg.maxHistoryLength) ∧
      (getConversationHistory cfg kv2 uid).length = 1 + cfg.maxHistoryLength ∧
      (getConversationHistory cfg kv2 uid).head? = some (systemEntry cfg) := by
  have hw0 := getConversationHistory_of_none cfg kv uid hg hempty
  have hne : ops ≠ [] := by
    intro hcon
    rw [hcon] at hn
    exact absurd hn (by simp)
  obtain ⟨kv2, happ, _, _, _, hconsc⟩ :=
    applyAppends_window cfg uid ops kv [] hg hp hw0 (by simp)
  obtain ⟨hlk2, hw2⟩ := hconsc hne
  have hform : lastN cfg.maxHistoryLength ([] ++ ops.map opEntry)
      = (ops.map opEntry).drop (ops.length - cfg.maxHistoryLength) := by
    simp [lastN]
  rw [hform] at hlk2 hw2
  refine ⟨kv2, happ, hlk2, hw2, ?_, ?_⟩
  · rw [hw2]
    simp only [List.length_cons, List.length_drop, List.length_map]
    omega
  · rw [hw2]
    rfl

/-- C5 witness: `maxHistoryLength = 2`, three appends; the stored window
keeps the preamble plus the last two entries, and the returned window has
exactly three entries headed by the system preamble. -/
theorem c5_witness :
    ∃ kv2, applyAppends ⟨2, "p".data⟩ ⟨[], fun _ => false, fun _ => false⟩ "u1"
        [.userMsg "a".data 1, .assistantMsg "b".data 2, .userMsg "c".data 3]
        = .ok kv2 ∧
      kv2.entries.lookup (conversationKey "u1")
        = some (systemEntry ⟨2, "p".data⟩ ::
            ([.userMsg "a".data 1, .assistantMsg "b".data 2,
              .userMsg "c".data 3].map opEntry).drop
              ([AppendOp.userMsg "a".data 1, .assistantMsg "b".data 2,
                .userMsg "c".data 3].length - 2)) ∧
      getConversationHistory ⟨2, "p".data⟩ kv2 "u1"
        = systemEntry ⟨2, "p".data⟩ ::
            ([.userMsg "a".data 1, .assistantMsg "b".data 2,
              .userMsg "c".data 3].map opEntry).drop
              ([AppendOp.userMsg "a".data 1, .assistantMsg "b".data 2,
                .userMsg "c".data 3].length - 2) ∧
      (getConversationHistory ⟨2, "p".data⟩ kv2 "u1").length = 1 + 2 ∧
      (getConversationHistory ⟨2, "p".data⟩ kv2 "u1").head?
        = some (systemEntry ⟨2, "p".data⟩) :=
  c5_window_cap ⟨2, "p".data⟩ ⟨[], fun _ => false, fun _ => false⟩ "u1"
    [.userMsg "a".data 1, .assistantMsg "b".data 2, .userMsg "c".data 3]
    rfl rfl rfl (by decide)

/-! ## C3 and C4: chunking lemmas -/

theorem splitStringByLengthAux_fuel (len : Nat) (hl : 0 < len) :
    ∀ (f g : Nat) (s : List Char), s.length ≤ f → s.length ≤ g →
      splitStringByLengthAux len f s = splitStringByLengthAux len g s := by
  intro f
  induction f with
  | zero =>
    intro g s hf hg
    have hs : s = [] := List.eq_nil_of_length_eq_zero (Nat.le_zero.mp hf)
    subst hs
    cases g <;> rfl
  | succ f ih =>
    intro g s hf hg
    rcases s with _ | ⟨c, rest⟩
    · cases g <;> rfl
    · rcases g with _ | g
      · exact absurd hg (by simp)
      · show (c :: rest).take len :: splitStringByLengthAux len f ((c :: rest).drop len)
            = (c :: rest).take len :: splitStringByLengthAux len g ((c :: rest).drop len)
        congr 1
        apply ih
        · rw [List.length_drop]
          simp only [List.length_cons] at hf ⊢
          omega
        · rw [List.length_drop]
          simp only [List.length_cons] at hg ⊢
          omega

theorem splitStringByLength_cons (s : List Char) (len : Nat) (hl : 0 < len)
    (hs : s ≠ []) :
    splitStringByLength s len = s.take len :: splitStringByLength (s.drop len) len := by
  rcases s with _ | ⟨c, rest⟩
  · exact absurd rfl hs
  · show (c :: rest).take len :: splitStringByLengthAux len rest.length ((c :: rest).drop len)
        = (c :: rest).take len
          :: splitStringByLengthAux len ((c :: rest).drop len).length ((c :: rest).drop len)
    congr 1
    apply splitStringByLengthAux_fuel len hl
    · rw [List.length_drop]
      simp only [List.length_cons]
      omega
    · exact le_refl _

/-- The chunks reassemble to the input (`len > 0`). -/
theorem flatten_splitStringByLength (len : Nat) (hl : 0 < len) :
    ∀ (n : Nat) (s : List Char), s.length ≤ n →
      (splitStringByLength s len).flatten = s := by
  intro n
  induction n with
  | zero =>
    intro s hs
    have h0 : s = [] := List.eq_nil_of_length_eq_zero (Nat.le_zero.mp hs)
    subst h0
    rfl
  | succ n ih =>
    intro s hs
    by_cases hse : s = []
    · subst hse
      rfl
    · rw [splitStringByLength_cons s len hl hse, List.flatten_cons,
        ih (s.drop len) (by rw [List.length_drop]; omega)]
      exact List.take_append_drop len s

/-- The number of chunks is the ceiling of length over chunk size. -/
theorem length_splitStringByLength (len : Nat) (hl : 0 < len) :
    ∀ (n : Nat) (s : List Char), s.length ≤ n →
      (splitStringByLength s len).length = (s.length + len - 1) / len := by
  intro n
  induction n with
  | zero =>
    intro s hs
    have h0 : s = [] := List.eq_nil_of_length_eq_zero (Nat.le_zero.mp hs)
    subst h0
    have hd : ((0 : Nat) + len - 1) / len = 0 := Nat.div_eq_of_lt (by omega)
    simpa [splitStringByLength, splitStringByLengthAux] using hd.symm
  | succ n ih =>
    intro s hs
    by_cases hse : s = []
    · subst hse
      have hd : ((0 : Nat) + len - 1) / len = 0 := Nat.div_eq_of_lt (by omega)
      simpa [splitStringByLength, splitStringByLengthAux] using hd.symm
    · have hpos : 0 < s.length := List.length_pos.mpr hse
      rw [splitStringByLength_cons s len hl hse, List.length_cons,
        ih (s.drop len) (by rw [List.length_drop]; omega), List.length_drop]
      by_cases hcase : s.length ≤ len
      · have h1 : s.length - len = 0 := by omega
        rw [h1]
        have h2 : ((0 : Nat) + len - 1) / len = 0 := Nat.div_eq_of_lt (by omega)
        rw [h2]
        have h3 : (s.length + len - 1) / len = 1 := by
          have he : s.length + len - 1 = (s.length - 1) + len := by omega
          rw [he, Nat.add_div_right _ hl, Nat.div_eq_of_lt (by omega)]
        rw [h3]
      · have h1 : s.length - len + len - 1 = (s.length - 1 - len) + len := by omega
        rw [h1, Nat.add_div_right _ hl]
        have h2 : s.length + len - 1 = (s.length - 1) + len := by omega
        rw [h2, Nat.add_div_right _ hl]
        rw [Nat.div_eq_sub_div hl (by omega : len ≤ s.length - 1)]

/-- Concatenating the first `k` chunks gives the first `len * k`
characters. -/
theorem flatten_take_splitStringByLength (len : Nat) (hl : 0 < len) :
    ∀ (n : Nat) (s : List Char) (k : Nat), s.length ≤ n →
      ((splitStringByLength s len).take k).flatten = s.take (len * k) := by
  intro n
  induction n with
  | zero =>
    intro s k hs
    have h0 : s = [] := List.eq_nil_of_length_eq_zero (Nat.le_zero.mp hs)
    subst h0
    simp [splitStringByLength, splitStringByLengthAux]
  | succ n ih =>
    intro s k hs
    by_cases hse : s = []
    · subst hse
      simp [splitStringByLength, splitStringByLengthAux]
    · rcases k with _ | k
      · simp
      · rw [splitStringByLength_cons s len hl hse, List.take_succ_cons,
          List.flatten_cons, ih (s.drop len) k (by rw [List.length_drop]; omega)]
        rw [show len * (k + 1) = len + len * k by ring, List.take_add]

theorem jsTrim_length_le (s : List Char) : (jsTrim s).length ≤ s.length := by
  unfold jsTrim
  rw [List.length_reverse]
  calc ((s.dropWhile Char.isWhitespace).reverse.dropWhile Char.isWhitespace).length
      ≤ (s.dropWhile Char.isWhitespace).reverse.length :=
        (List.dropWhile_sublist _).length_le
    _ = (s.dropWhile Char.isWhitespace).length := List.length_reverse _
    _ ≤ s.length := (List.dropWhile_sublist _).length_le

/-- One unfolding step of the dispatch loop. -/
theorem dispatchLoop_cons (touser openKfid msgid : String) (question value : List Char)
    (total i : Nat) (c : List Char) (cs : List (List Char)) :
    dispatchLoop touser openKfid msgid question value total i (c :: cs)
      = (if i + 1 = messageChunkCount ∨ i = total - 1
         then wireNoteEvents touser openKfid msgid question value
         else [.textSent touser openKfid c]) ++
        dispatchLoop touser openKfid msgid question value total (i + 1) cs := rfl

/-- Past the fifth position, the loop sends plain text until the final
chunk, which triggers the file path. -/
theorem dispatchLoop_tail (touser openKfid msgid : String) (question value : List Char)
    (total : Nat) :
    ∀ (mid : List (List Char)) (clast : List Char) (i : Nat),
      4 < i → i + mid.length + 1 = total →
      dispatchLoop touser openKfid msgid question value total i (mid ++ [clast])
        = mid.map (SendEvent.textSent touser openKfid) ++
          wireNoteEvents touser openKfid msgid question value := by
  intro mid
  induction mid with
  | nil =>
    intro clast i hi htot
    simp only [List.length_nil] at htot
    rw [List.nil_append, dispatchLoop_cons]
    have hcond : i + 1 = messageChunkCount ∨ i = total - 1 := Or.inr (by omega)
    rw [if_pos hcond]
    simp [dispatchLoop]
  | cons c mid ih =>
    intro clast i hi htot
    rw [List.cons_append, dispatchLoop_cons]
    have hcond : ¬(i + 1 = messageChunkCount ∨ i = total - 1) := by
      simp only [List.length_cons] at htot
      simp only [messageChunkCount]
      omega
    rw [if_neg hcond, ih clast (i + 1) (by omega)
      (by simp only [List.length_cons] at htot; omega)]
    simp

/-- With at most four chunks in total, only the final chunk triggers the
file path. -/
theorem dispatchLoop_small (touser openKfid msgid : String) (question value : List Char)
    (total : Nat) :
    ∀ (mid : List (List Char)) (clast : List Char) (i : Nat),
      i + mid.length + 1 = total → total ≤ 4 →
      dispatchLoop touser openKfid msgid question value total i (mid ++ [clast])
        = mid.map (SendEvent.textSent touser openKfid) ++
          wireNoteEvents touser openKfid msgid question value := by
  intro mid
  induction mid with
  | nil =>
    intro clast i htot h4
    simp only [List.length_nil] at htot
    rw [List.nil_append, dispatchLoop_cons]
    have hcond : i + 1 = messageChunkCount ∨ i = total - 1 := Or.inr (by omega)
    rw [if_pos hcond]
    simp [dispatchLoop]
  | cons c mid ih =>
    intro clast i htot h4
    rw [List.cons_append, dispatchLoop_cons]
    have hcond : ¬(i + 1 = messageChunkCount ∨ i = total - 1) := by
      simp only [List.length_cons] at htot
      simp only [messageChunkCount]
      omega
    rw [if_neg hcond, ih clast (i + 1)
      (by simp only [List.length_cons] at htot; omega) h4]
    simp

theorem textContents_append (a b : List SendEvent) :
    textContents (a ++ b) = textContents a ++ textContents b :=
  List.filterMap_append ..

theorem fileContents_append (a b : List SendEvent) :
    fileContents (a ++ b) = fileContents a ++ fileContents b :=
  List.filterMap_append ..

theorem textContents_textMap (touser openKfid : String) (l : List (List Char)) :
    textContents (l.map (SendEvent.textSent touser openKfid)) = l := by
  induction l with
  | nil => rfl
  | cons c cs ih => simp only [List.map_cons, textContents, List.filterMap_cons] at ih ⊢; rw [ih]

theorem fileContents_textMap (touser openKfid : String) (l : List (List Char)) :
    fileContents (l.map (SendEvent.textSent touser openKfid)) = [] := by
  induction l with
  | nil => rfl
  | cons c cs ih => simp only [List.map_cons, fileContents, List.filterMap_cons] at ih ⊢; rw [ih]

theorem countP_fileUpload_textMap (touser openKfid : String) (l : List (List Char)) :
    (l.map (SendEvent.textSent touser openKfid)).countP isFileUpload = 0 := by
  induction l with
  | nil => rfl
  | cons c cs ih => simp [List.countP_cons, isFileUpload, ih]

theorem fileContents_wireNote (touser openKfid msgid : String) (q v : List Char) :
    fileContents (wireNoteEvents touser openKfid msgid q v) = [v] := rfl

theorem textContents_wireNote (touser openKfid msgid : String) (q v : List Char) :
    textContents (wireNoteEvents touser openKfid msgid q v) = [] := rfl

theorem countP_fileUpload_wireNote (touser openKfid msgid : String) (q v : List Char) :
    (wireNoteEvents touser openKfid msgid q v).countP isFileUpload = 1 := rfl

/-- Closed form of the dispatch of a reply needing at least five chunks:
chunks 1–4 go out as text, the file path fires at chunk 5, text chunks
keep flowing after it, and the file path fires AGAIN at the final chunk
(there is no `break` in the loop) unless chunk 5 was already the final
chunk. -/
theorem dispatchReply_overflow (touser openKfid msgid : String) (q s : List Char)
    (h : 4 * messageChunkSize < (jsTrim s).length) :
    dispatchReply touser openKfid msgid q s
      = ((splitStringByLength (jsTrim s) messageChunkSize).take 4).map
            (SendEvent.textSent touser openKfid)
        ++ wireNoteEvents touser openKfid msgid q s
        ++ (((splitStringByLength (jsTrim s) messageChunkSize).drop 5).dropLast).map
            (SendEvent.textSent touser openKfid)
        ++ (if (splitStringByLength (jsTrim s) messageChunkSize).length = 5 then []
            else wireNoteEvents touser openKfid msgid q s) := by
  have hpos : 0 < messageChunkSize := by decide
  have hs : messageChunkSize < s.length := by
    have := jsTrim_length_le s
    simp only [messageChunkSize] at h ⊢
    omega
  have hn : 5 ≤ (splitStringByLength (jsTrim s) messageChunkSize).length := by
    rw [length_splitStringByLength messageChunkSize hpos (jsTrim s).length
      (jsTrim s) (le_refl _)]
    rw [Nat.le_div_iff_mul_le hpos]
    simp only [messageChunkSize] at h ⊢
    omega
  obtain ⟨c0, c1, c2, c3, c4, rest, hch⟩ :
      ∃ c0 c1 c2 c3 c4 rest, splitStringByLength (jsTrim s) messageChunkSize
        = c0 :: c1 :: c2 :: c3 :: c4 :: rest := by
    rcases hc : splitStringByLength (jsTrim s) messageChunkSize with
      _ | ⟨c0, _ | ⟨c1, _ | ⟨c2, _ | ⟨c3, _ | ⟨c4, rest⟩⟩⟩⟩⟩
    · rw [hc] at hn; simp at hn
    · rw [hc] at hn; simp at hn
    · rw [hc] at hn; simp at hn
    · rw [hc] at hn; simp at hn
    · rw [hc] at hn; simp at hn
    · exact ⟨c0, c1, c2, c3, c4, rest, rfl⟩
  simp only [dispatchReply]
  rw [if_pos hs, hch]
  have htot : (c0 :: c1 :: c2 :: c3 :: c4 :: rest).length = rest.length + 5 := by simp
  rw [htot]
  have e0 : ¬(0 + 1 = messageChunkCount ∨ 0 = rest.length + 5 - 1) := by
    simp only [messageChunkCount]; omega
  have e1 : ¬(1 + 1 = messageChunkCount ∨ 1 = rest.length + 5 - 1) := by
    simp only [messageChunkCount]; omega
  have e2 : ¬(2 + 1 = messageChunkCount ∨ 2 = rest.length + 5 - 1) := by
    simp only [messageChunkCount]; omega
  have e3 : ¬(3 + 1 = messageChunkCount ∨ 3 = rest.length + 5 - 1) := by
    simp only [messageChunkCount]; omega
  have e4 : 4 + 1 = messageChunkCount ∨ 4 = rest.length + 5 - 1 :=
    Or.inl (by simp [messageChunkCount])
  rw [dispatchLoop_cons, if_neg e0, dispatchLoop_cons, if_neg e1,
    dispatchLoop_cons, if_neg e2, dispatchLoop_cons, if_neg e3,
    dispatchLoop_cons, if_pos e4]
  rcases List.eq_nil_or_concat rest with hre | ⟨mid, clast, hre⟩
  · subst hre
    simp [dispatchLoop]
  · rw [List.concat_eq_append] at hre
    subst hre
    rw [dispatchLoop_tail touser openKfid msgid q s _ mid clast 5 (by omega)
      (by simp [List.length_append]; omega)]
    have h5 : ¬((mid ++ [clast]).length + 5 = 5) := by simp
    rw [if_neg h5]
    simp [List.dropLast_concat]

/-- C3 (amended): for a reply whose trimmed form needs at least 5 chunks
at `chunkSize = 1024`, the dispatcher sends the first four chunks as
text; at chunk 5 it uploads and sends the ENTIRE ORIGINAL reply (not the
trimmed one) as a file; there is no `break`, so any chunks between the
5th and the last are still sent as text and the file upload+send happens
a SECOND time at the last chunk whenever there are at least 6 chunks
(exactly once only when there are exactly 5).  Consequently the number of
file uploads is 1 when the chunk count is 5 and 2 otherwise, each
carrying the full untrimmed reply. -/
theorem c3_overflow_to_file (touser openKfid msgid : String) (q s : List Char)
    (h : 4 * messageChunkSize < (jsTrim s).length) :
    dispatchReply touser openKfid msgid q s
      = ((splitStringByLength (jsTrim s) messageChunkSize).take 4).map
            (SendEvent.textSent touser openKfid)
        ++ wireNoteEvents touser openKfid msgid q s
        ++ (((splitStringByLength (jsTrim s) messageChunkSize).drop 5).dropLast).map
            (SendEvent.textSent touser openKfid)
        ++ (if (splitStringByLength (jsTrim s) messageChunkSize).length = 5 then []
            else wireNoteEvents touser openKfid msgid q s) ∧
    (dispatchReply touser openKfid msgid q s).countP isFileUpload
      = (if (splitStringByLength (jsTrim s) messageChunkSize).length = 5
         then 1 else 2) ∧
    fileContents (dispatchReply touser openKfid msgid q s)
      = (if (splitStringByLength (jsTrim s) messageChunkSize).length = 5
         then [s] else [s, s]) := by
  have hcf := dispatchReply_overflow touser openKfid msgid q s h
  refine ⟨hcf, ?_, ?_⟩
  · rw [hcf]
    by_cases h5 : (splitStringByLength (jsTrim s) messageChunkSize).length = 5
    · rw [if_pos h5, List.countP_append, List.countP_append, List.countP_append,
        countP_fileUpload_textMap, countP_fileUpload_textMap,
        countP_fileUpload_wireNote, List.countP_nil, if_pos h5]
    · rw [if_neg h5, List.countP_append, List.countP_append, List.countP_append,
        countP_fileUpload_textMap, countP_fileUpload_textMap,
        countP_fileUpload_wireNote, if_neg h5]
  · rw [hcf]
    by_cases h5 : (splitStringByLength (jsTrim s) messageChunkSize).length = 5
    · rw [if_pos h5, fileContents_append, fileContents_append, fileContents_append,
        fileContents_textMap, fileContents_textMap, fileContents_wireNote, if_pos h5]
      rfl
    · rw [if_neg h5, fileContents_append, fileContents_append, fileContents_append,
        fileContents_textMap, fileContents_textMap, fileContents_wireNote, if_neg h5]
      rfl

/-- Closed form of the dispatch of a multi-chunk reply whose trimmed form
has at most four chunks: every chunk but the last goes out as text, and
the last chunk triggers the file path instead of being sent as text. -/
theorem dispatchReply_smallForm (touser openKfid msgid : String) (q s : List Char)
    (h1 : messageChunkSize < s.length)
    (h4 : (jsTrim s).length ≤ 4 * messageChunkSize)
    (hne : jsTrim s ≠ []) :
    dispatchReply touser openKfid msgid q s
      = ((splitStringByLength (jsTrim s) messageChunkSize).dropLast).map
          (SendEvent.textSent touser openKfid)
        ++ wireNoteEvents touser openKfid msgid q s := by
  have hpos : 0 < messageChunkSize := by decide
  have hn4 : (splitStringByLength (jsTrim s) messageChunkSize).length ≤ 4 := by
    rw [length_splitStringByLength messageChunkSize hpos (jsTrim s).length
      (jsTrim s) (le_refl _)]
    have hle : (jsTrim s).length + messageChunkSize - 1 ≤ 5119 := by
      simp only [messageChunkSize] at h4 ⊢
      omega
    calc ((jsTrim s).length + messageChunkSize - 1) / messageChunkSize
        ≤ 5119 / messageChunkSize := Nat.div_le_div_right hle
      _ = 4 := by decide
  have hchne : splitStringByLength (jsTrim s) messageChunkSize ≠ [] := by
    rw [splitStringByLength_cons _ _ hpos hne]
    simp
  rcases List.eq_nil_or_concat (splitStringByLength (jsTrim s) messageChunkSize)
    with hc | ⟨mid, clast, hc⟩
  · exact absurd hc hchne
  · rw [List.concat_eq_append] at hc
    simp only [dispatchReply]
    rw [if_pos h1, hc]
    rw [dispatchLoop_small touser openKfid msgid q s _ mid clast 0
      (by simp) (by rw [← hc]; exact hn4)]
    rw [List.dropLast_concat]

theorem countP_textSend_textMap (touser openKfid : String) (l : List (List Char)) :
    (l.map (SendEvent.textSent touser openKfid)).countP isTextSend = l.length := by
  induction l with
  | nil => rfl
  | cons c cs ih => simp [List.countP_cons, isTextSend, ih]

theorem countP_textSend_wireNote (touser openKfid msgid : String) (q v : List Char) :
    (wireNoteEvents touser openKfid msgid q v).countP isTextSend = 0 := rfl

theorem dropWhile_ws_replicate (n : Nat) (c : Char) (hc : c.isWhitespace = false) :
    (List.replicate n c).dropWhile Char.isWhitespace = List.replicate n c := by
  cases n with
  | zero => rfl
  | succ n => rw [List.replicate_succ, List.dropWhile_cons, hc]; simp

/-- Trimming a constant run of a non-whitespace character is a no-op. -/
theorem jsTrim_replicate (n : Nat) (c : Char) (hc : c.isWhitespace = false) :
    jsTrim (List.replicate n c) = List.replicate n c := by
  unfold jsTrim
  rw [dropWhile_ws_replicate n c hc, List.reverse_replicate,
    dropWhile_ws_replicate n c hc, List.reverse_replicate]

/-- C4 (amended): a reply of at most `chunkSize` code units is sent as a
single text message — UNMODIFIED, not trimmed (the `else` branch sends
`assistantMessage` itself).  A longer reply with at most 4 chunks has all
chunks EXCEPT THE LAST sent as text; the last chunk always triggers the
file path (`i === chunks.length - 1`), which uploads and sends the whole
untrimmed reply.  The concatenation of the dispatched text chunks
therefore equals the trimmed reply with its final chunk removed, not the
trimmed reply. -/
theorem c4_chunk_reconstruction :
    (∀ (touser openKfid msgid : String) (q s : List Char),
      s.length ≤ messageChunkSize →
      dispatchReply touser openKfid msgid q s = [.textSent touser openKfid s]) ∧
    (∀ (touser openKfid msgid : String) (q s : List Char),
      messageChunkSize < s.length → s.length ≤ 4 * messageChunkSize →
      jsTrim s ≠ [] →
      dispatchReply touser openKfid msgid q s
        = ((splitStringByLength (jsTrim s) messageChunkSize).dropLast).map
            (SendEvent.textSent touser openKfid)
          ++ wireNoteEvents touser openKfid msgid q s ∧
      (textContents (dispatchReply touser openKfid msgid q s)).flatten
        = (jsTrim s).take
            (messageChunkSize *
              ((splitStringByLength (jsTrim s) messageChunkSize).length - 1))) := by
  have hpos : 0 < messageChunkSize := by decide
  constructor
  · intro touser openKfid msgid q s hle
    unfold dispatchReply
    rw [if_neg (Nat.not_lt.mpr hle)]
  · intro touser openKfid msgid q s h1 h4 hne
    have hform := dispatchReply_smallForm touser openKfid msgid q s h1
      (le_trans (jsTrim_length_le s) h4) hne
    refine ⟨hform, ?_⟩
    rw [hform, textContents_append, textContents_textMap, textContents_wireNote,
      List.append_nil, List.dropLast_eq_take,
      flatten_take_splitStringByLength messageChunkSize hpos (jsTrim s).length
        (jsTrim s) _ (le_refl _)]

/-- C3 counterexample: a reply of one leading space plus 6000 characters
(trimmed length 6000, six chunks at `chunkSize = 1024`).  The dispatcher
sends exactly 4 text chunks, but performs the file upload+send TWICE (at
chunk 5 and again at the final chunk — there is no `break`), and each
uploaded file carries the untrimmed original reply, which differs from
the trimmed reply.  This contradicts "exactly one file upload plus one
file send carrying the full trimmed reply, and sends nothing further for
this reply after the file is dispatched". -/
theorem c3_counterexample :
    (dispatchReply "u1" "kf1" "m1" [] (' ' :: List.replicate 6000 'a')).countP
        isFileUpload = 2 ∧
    (dispatchReply "u1" "kf1" "m1" [] (' ' :: List.replicate 6000 'a')).countP
        isTextSend = 4 ∧
    fileContents (dispatchReply "u1" "kf1" "m1" [] (' ' :: List.replicate 6000 'a'))
      = [' ' :: List.replicate 6000 'a', ' ' :: List.replicate 6000 'a'] ∧
    jsTrim (' ' :: List.replicate 6000 'a') ≠ ' ' :: List.replicate 6000 'a' := by
  have hjt : jsTrim (' ' :: List.replicate 6000 'a') = List.replicate 6000 'a' := by
    unfold jsTrim
    rw [List.dropWhile_cons, if_pos (by decide : (' '.isWhitespace) = true)]
    rw [dropWhile_ws_replicate 6000 'a' (by decide), List.reverse_replicate,
      dropWhile_ws_replicate 6000 'a' (by decide), List.reverse_replicate]
  have hlen4 : 4 * messageChunkSize
      < (jsTrim (' ' :: List.replicate 6000 'a')).length := by
    rw [hjt, List.length_replicate]
    decide
  have hn : (splitStringByLength (jsTrim (' ' :: List.replicate 6000 'a'))
      messageChunkSize).length = 6 := by
    rw [hjt, length_splitStringByLength messageChunkSize (by decide)
      (List.replicate 6000 'a').length (List.replicate 6000 'a') (le_refl _),
      List.length_replicate]
    decide
  have hcf := dispatchReply_overflow "u1" "kf1" "m1" []
    (' ' :: List.replicate 6000 'a') hlen4
  have hne5 : ¬ (splitStringByLength (jsTrim (' ' :: List.replicate 6000 'a'))
      messageChunkSize).length = 5 := by
    rw [hn]; decide
  refine ⟨?_, ?_, ?_, ?_⟩
  · rw [hcf, if_neg hne5, List.countP_append, List.countP_append, List.countP_append,
      countP_fileUpload_textMap, countP_fileUpload_textMap, countP_fileUpload_wireNote]
  · rw [hcf, if_neg hne5, List.countP_append, List.countP_append, List.countP_append,
      countP_textSend_textMap, countP_textSend_textMap, countP_textSend_wireNote,
      List.length_take, List.length_dropLast, List.length_drop, hn]
    omega
  · rw [hcf, if_neg hne5, fileContents_append, fileContents_append,
      fileContents_append, fileContents_textMap, fileContents_textMap,
      fileContents_wireNote]
    rfl
  · intro heq
    rw [hjt] at heq
    have hl := congrArg List.length heq
    rw [List.length_cons, List.length_replicate] at hl
    omega

/-- C3 amended witness: a 4500-character reply (five chunks) exercises
the amended theorem; the file path fires exactly once there. -/
theorem c3_amended_witness :
    4 * messageChunkSize < (jsTrim (List.replicate 4500 'a')).length ∧
    (dispatchReply "u1" "kf1" "m1" [] (List.replicate 4500 'a')).countP isFileUpload
      = (if (splitStringByLength (jsTrim (List.replicate 4500 'a'))
            messageChunkSize).length = 5 then 1 else 2) := by
  have h : 4 * messageChunkSize < (jsTrim (List.replicate 4500 'a')).length := by
    rw [jsTrim_replicate 4500 'a' (by decide), List.length_replicate]
    decide
  exact ⟨h, (c3_overflow_to_file "u1" "kf1" "m1" [] (List.replicate 4500 'a') h).2.1⟩

/-- C4 counterexample: a 2048-character reply (two chunks) has its second
chunk replaced by a file upload+send, so not every chunk is sent as text,
a file IS sent, and the concatenated text chunks (1024 characters) do not
reconstruct `s.trim()`; a short reply with surrounding whitespace (" a")
is sent as text without trimming, so the dispatched text also differs
from `s.trim()` in the single-chunk regime. -/
theorem c4_counterexample :
    (dispatchReply "u1" "kf1" "m1" [] (List.replicate 2048 'a')).countP
        isFileUpload = 1 ∧
    (textContents (dispatchReply "u1" "kf1" "m1" []
        (List.replicate 2048 'a'))).flatten
      ≠ jsTrim (List.replicate 2048 'a') ∧
    dispatchReply "u1" "kf1" "m1" [] " a".data
      = [.textSent "u1" "kf1" " a".data] ∧
    (textContents (dispatchReply "u1" "kf1" "m1" [] " a".data)).flatten
      ≠ jsTrim " a".data := by
  have hjt : jsTrim (List.replicate 2048 'a') = List.replicate 2048 'a' :=
    jsTrim_replicate 2048 'a' (by decide)
  have h1 : messageChunkSize < (List.replicate 2048 'a').length := by
    rw [List.length_replicate]; decide
  have h4 : (jsTrim (List.replicate 2048 'a')).length ≤ 4 * messageChunkSize := by
    rw [hjt, List.length_replicate]; decide
  have hne : jsTrim (List.replicate 2048 'a') ≠ [] := by
    rw [hjt]
    intro heq
    have hl := congrArg List.length heq
    rw [List.length_replicate, List.length_nil] at hl
    omega
  have hform := dispatchReply_smallForm "u1" "kf1" "m1" []
    (List.replicate 2048 'a') h1 h4 hne
  have hn : (splitStringByLength (jsTrim (List.replicate 2048 'a'))
      messageChunkSize).length = 2 := by
    rw [hjt, length_splitStringByLength messageChunkSize (by decide)
      (List.replicate 2048 'a').length _ (le_refl _), List.length_replicate]
    decide
  refine ⟨?_, ?_, ?_, ?_⟩
  · rw [hform, List.countP_append, countP_fileUpload_textMap,
      countP_fileUpload_wireNote]
  · rw [hform, textContents_append, textContents_textMap, textContents_wireNote,
      List.append_nil, List.dropLast_eq_take,
      flatten_take_splitStringByLength messageChunkSize (by decide)
        (jsTrim (List.replicate 2048 'a')).length _ _ (le_refl _), hn]
    rw [hjt, List.take_replicate]
    intro heq
    have hl := congrArg List.length heq
    rw [List.length_replicate, List.length_replicate] at hl
    simp only [messageChunkSize] at hl
    omega
  · decide
  · decide

/-- C4 amended witness: a short reply goes out as one untrimmed text; a
1500-character reply (two chunks) sends its first chunk as text and its
last chunk as the file pair. -/
theorem c4_amended_witness :
    dispatchReply "u1" "kf1" "m1" [] "hi".data = [.textSent "u1" "kf1" "hi".data] ∧
    dispatchReply "u1" "kf1" "m1" [] (List.replicate 1500 'b')
      = ((splitStringByLength (jsTrim (List.replicate 1500 'b'))
            messageChunkSize).dropLast).map (SendEvent.textSent "u1" "kf1")
        ++ wireNoteEvents "u1" "kf1" "m1" [] (List.replicate 1500 'b') :=
  ⟨c4_chunk_reconstruction.1 "u1" "kf1" "m1" [] "hi".data (by decide),
   (c4_chunk_reconstruction.2 "u1" "kf1" "m1" [] (List.replicate 1500 'b')
     (by rw [List.length_replicate]; decide)
     (by rw [List.length_replicate]; decide)
     (by
       rw [jsTrim_replicate 1500 'b' (by decide)]
       intro heq
       have hl := congrArg List.length heq
       rw [List.length_replicate, List.length_nil] at hl
       omega)).1⟩

end WxKf
